import Mathlib

/-!
# http_inspector: the router and the lifecycle of `main`

`src/main.go` builds a `net/http.ServeMux` with the two patterns `GET /{$}` and `/`,
serves it from a goroutine and shuts down on SIGINT/SIGTERM.

The first part embeds the routing code that `main` calls: pattern parsing, the conflict
check of registration, the routing tree and `ServeMux.findHandler`, following the Go
standard library (`net/http/pattern.go`, `routing_tree.go`, `server.go`, `path.Clean`,
`net/url` unescaping; Go 1.22 and later).  The second part embeds `main` itself as a
two-thread step function (the main goroutine and the `go func()` of line 50).
-/

namespace HttpInspector

/-- A Go string: its bytes in order, each byte written as the character with that code. -/
abbrev Str := List Char

/-! ## `path.Clean` and `cleanPath` -/

/-- The `..` case of `path.Clean` on the output buffer, kept newest byte first:
`out.w--; for out.w > dotdot && out.index(out.w) != '/' { out.w-- }`. -/
def backtrack (dotdot : Nat) : List Char → List Char
  | [] => []
  | b :: out => if out.length > dotdot && b != '/' then backtrack dotdot out else out

/-- What `path.Clean` writes before a real path element: a separating slash, if needed. -/
def elemStart (rooted : Bool) (out : List Char) : List Char :=
  if (rooted && out.length != 1) || (!rooted && out.length != 0) then '/' :: out else out

/-- The `..` element of `path.Clean`: the new output buffer and the new `dotdot`. -/
def dotdotElem (rooted : Bool) (dotdot : Nat) (out : List Char) : List Char × Nat :=
  if out.length > dotdot then (backtrack dotdot out, dotdot)
  else if !rooted then
    let out1 := '.' :: '.' :: (if out.length > 0 then '/' :: out else out)
    (out1, out1.length)
  else (out, dotdot)

/-- The loop `for r < n` of `path.Clean`.  `rest` is `path[r:]`, `out` the written bytes
newest first, and `inElem` says that the inner loop copying a path element is running. -/
def cleanLoop (rooted : Bool) : Bool → Nat → List Char → Str → List Char
  | _, _, out, [] => out
  | true, dotdot, out, c :: cs =>
    -- `for ; r < n && path[r] != '/'; r++ { out.append(path[r]) }`
    if c = '/' then cleanLoop rooted false dotdot out cs
    else cleanLoop rooted true dotdot (c :: out) cs
  | false, dotdot, out, c :: cs =>
    if c = '/' then cleanLoop rooted false dotdot out cs
    else if c = '.' ∧ (cs = [] ∨ cs.head? = some '/') then cleanLoop rooted false dotdot out cs
    else
      match cs with
      | d :: cs2 =>
        if c = '.' ∧ d = '.' ∧ (cs2 = [] ∨ cs2.head? = some '/') then
          cleanLoop rooted false (dotdotElem rooted dotdot out).2 (dotdotElem rooted dotdot out).1 cs2
        else cleanLoop rooted true dotdot (c :: elemStart rooted out) (d :: cs2)
      | [] => cleanLoop rooted true dotdot (c :: elemStart rooted out) []

/-- Go's `path.Clean`. -/
def Clean (path : Str) : Str :=
  match path with
  | [] => ['.']
  | c :: cs =>
    let out := if c = '/' then cleanLoop true false 1 ['/'] cs else cleanLoop false false 0 [] (c :: cs)
    if out.length = 0 then ['.'] else out.reverse

/-- The `cleanPath` of `net/http/server.go`: the canonical path for `p`. -/
def cleanPath (p : Str) : Str :=
  match p with
  | [] => ['/']
  | c :: cs =>
    let p := if c ≠ '/' then '/' :: c :: cs else c :: cs
    let np := Clean p
    if p.getLast? = some '/' ∧ np ≠ ['/'] then
      if p.length = np.length + 1 ∧ np.isPrefixOf p then p else np ++ ['/']
    else np

/-! ## `net/url`: percent-decoding of a path segment -/

/-- The `ishex` of `net/url`. -/
def ishex (c : Char) : Bool :=
  (48 ≤ c.toNat && c.toNat ≤ 57) || (97 ≤ c.toNat && c.toNat ≤ 102) || (65 ≤ c.toNat && c.toNat ≤ 70)

/-- The `unhex` of `net/url`. -/
def unhex (c : Char) : Nat :=
  if 48 ≤ c.toNat ∧ c.toNat ≤ 57 then c.toNat - 48
  else if 97 ≤ c.toNat ∧ c.toNat ≤ 102 then c.toNat - 97 + 10
  else if 65 ≤ c.toNat ∧ c.toNat ≤ 70 then c.toNat - 65 + 10
  else 0

/-- First pass of `url.unescape` in path-segment mode: every `%` is followed by two hex
digits (`if i+2 >= len(s) || !ishex(s[i+1]) || !ishex(s[i+2])` is the error). -/
def escapesOK : Str → Bool
  | [] => true
  | c :: rest =>
    if c = '%' then
      match rest with
      | a :: b :: rest2 => ishex a && ishex b && escapesOK rest2
      | _ => false
    else escapesOK rest

/-- Second pass of `url.unescape` in path-segment mode: `%XY` becomes the byte
`unhex(X)<<4 | unhex(Y)`, every other byte (also `+`) is copied. -/
def decodeEscapes : Str → Str
  | [] => []
  | c :: rest =>
    if c = '%' then
      match rest with
      | a :: b :: rest2 => Char.ofNat (unhex a * 16 + unhex b) :: decodeEscapes rest2
      | _ => []
    else c :: decodeEscapes rest

/-- The `pathUnescape` of `net/http`: `url.PathUnescape`, or the path itself when that fails. -/
def pathUnescape (path : Str) : Str :=
  if escapesOK path then decodeEscapes path else path

/-! ## `net/http/pattern.go` -/

/-- A pattern piece that matches one or more path segments, or a trailing slash.
A `{$}` is the literal `/`; a trailing slash is an unnamed multi wildcard. -/
structure segment where
  s : Str
  wild : Bool
  multi : Bool
deriving DecidableEq, Repr

/-- A pattern passed to `ServeMux.Handle`: `[METHOD] [HOST]/[PATH]`. -/
structure pattern where
  str : Str
  method : Str
  host : Str
  segments : List segment
deriving DecidableEq, Repr

/-- The errors of `parsePattern`, one for each `errors.New`/`fmt.Errorf` of the function. -/
inductive PatternError where
  | emptyPattern
  | invalidMethod
  | missingSlash
  | hostHasBrace
  | uncleanPath
  | wildcardStart
  | wildcardEnd
  | dollarNotAtEnd
  | multiNotAtEnd
  | emptyWildcard
  | badWildcardName
  | duplicateWildcardName
deriving DecidableEq, Repr

/-- The `httpguts.IsTokenRune` table: the bytes allowed in an HTTP method. -/
def isTokenRune (c : Char) : Bool :=
  c.isAlphanum || [33, 35, 36, 37, 38, 39, 42, 43, 45, 46, 94, 95, 96, 124, 126].contains c.toNat

/-- The `validMethod` of `net/http`. -/
def validMethod (method : Str) : Bool :=
  method.length > 0 && method.all isTokenRune

/-- The `isValidWildcardName` of `pattern.go` (a Go identifier; letters are taken to be the
ASCII ones, the model's strings being byte strings). -/
def isValidWildcardName : Str → Bool
  | [] => false
  | c :: cs => (c.isAlpha || c = '_') && cs.all (fun d => d.isAlpha || d = '_' || d.isDigit)

/-- The result of `strings.CutSuffix(name, "...")`. -/
def cutDots (name : Str) : Str × Bool :=
  if ['.', '.', '.'].isSuffixOf name then (name.take (name.length - 3), true) else (name, false)

/-- The loop `for len(rest) > 0` of `parsePattern`, one iteration for each unit of `fuel`.
`rest` starts with a slash; `seen` holds the wildcard names met so far. -/
def parseSegments : Nat → Str → List Str → Except PatternError (List segment)
  | 0, _, _ => .ok []
  | fuel + 1, rest, seen =>
    match rest with
    | [] => .ok []
    | _ :: rest =>
      if rest = [] then
        -- trailing slash
        .ok [{ s := [], wild := true, multi := true }]
      else
        let seg := rest.takeWhile (fun c => c != '/')
        let rest := rest.dropWhile (fun c => c != '/')
        if ¬ seg.contains '{' then
          (parseSegments fuel rest seen).map (fun segs => { s := pathUnescape seg, wild := false, multi := false } :: segs)
        else if seg.head? ≠ some '{' then .error .wildcardStart
        else if seg.getLast? ≠ some '}' then .error .wildcardEnd
        else
          let name := (seg.drop 1).take (seg.length - 2)
          if name = ['$'] then
            if rest ≠ [] then .error .dollarNotAtEnd
            else .ok [{ s := ['/'], wild := false, multi := false }]
          else
            let (name, multi) := cutDots name
            if multi ∧ rest ≠ [] then .error .multiNotAtEnd
            else if name = [] then .error .emptyWildcard
            else if ¬ isValidWildcardName name then .error .badWildcardName
            else if seen.contains name then .error .duplicateWildcardName
            else
              (parseSegments fuel rest (name :: seen)).map (fun segs => { s := name, wild := true, multi := multi } :: segs)

/-- The `parsePattern` of `pattern.go`. -/
def parsePattern (s : Str) : Except PatternError pattern :=
  if s = [] then .error .emptyPattern
  else
    let isBlank := fun (c : Char) => c = ' ' || c = '\t'
    -- `strings.IndexAny(s, " \t")`, then `strings.TrimLeft(s[i+1:], " \t")`
    let found := s.any isBlank
    let method := if found then s.takeWhile (fun c => !isBlank c) else []
    let rest := if found then ((s.dropWhile (fun c => !isBlank c)).drop 1).dropWhile isBlank else s
    if method ≠ [] ∧ ¬ validMethod method then .error .invalidMethod
    else if ¬ rest.contains '/' then .error .missingSlash
    else
      let host := rest.takeWhile (fun c => c != '/')
      let rest := rest.dropWhile (fun c => c != '/')
      if host.contains '{' then .error .hostHasBrace
      else if method ≠ [] ∧ method ≠ "CONNECT".toList ∧ rest ≠ cleanPath rest then .error .uncleanPath
      else
        (parseSegments rest.length rest []).map
          (fun segs => { str := s, method := method, host := host, segments := segs })

/-- The `relationship` of two patterns. -/
inductive relationship where
  | equivalent
  | moreGeneral
  | moreSpecific
  | disjoint
  | overlaps
deriving DecidableEq, Repr

/-- The `inverseRelationship` of `pattern.go`. -/
def inverseRelationship : relationship → relationship
  | .moreSpecific => .moreGeneral
  | .moreGeneral => .moreSpecific
  | r => r

/-- The `combineRelationships` of `pattern.go`. -/
def combineRelationships (r1 r2 : relationship) : relationship :=
  match r1 with
  | .equivalent => r2
  | .disjoint => .disjoint
  | .overlaps => if r2 = .disjoint then .disjoint else .overlaps
  | _ =>
    if r2 = .equivalent then r1
    else if r2 = inverseRelationship r1 then .overlaps
    else r2

/-- The `compareSegments` of `pattern.go`. -/
def compareSegments (s1 s2 : segment) : relationship :=
  if s1.multi ∧ s2.multi then .equivalent
  else if s1.multi then .moreGeneral
  else if s2.multi then .moreSpecific
  else if s1.wild ∧ s2.wild then .equivalent
  else if s1.wild then (if s2.s = ['/'] then .disjoint else .moreGeneral)
  else if s2.wild then (if s1.s = ['/'] then .disjoint else .moreSpecific)
  else if s1.s = s2.s then .equivalent
  else .disjoint

/-- Whether the last segment of the pattern is a multi wildcard: `p.lastSegment().multi`. -/
def pattern.lastMulti (p : pattern) : Bool :=
  match p.segments.getLast? with
  | some seg => seg.multi
  | none => false

/-- The `compareMethods` of `pattern.go`. -/
def pattern.compareMethods (p1 p2 : pattern) : relationship :=
  if p1.method = p2.method then .equivalent
  else if p1.method = [] then .moreGeneral
  else if p2.method = [] then .moreSpecific
  else if p1.method = "GET".toList ∧ p2.method = "HEAD".toList then .moreGeneral
  else if p2.method = "GET".toList ∧ p1.method = "HEAD".toList then .moreSpecific
  else .disjoint

/-- The loop over corresponding segments in `comparePaths`, with what follows it. -/
def comparePathsLoop (multi1 multi2 : Bool) : relationship → List segment → List segment → relationship
  | rel, s1 :: segs1, s2 :: segs2 =>
    let rel := combineRelationships rel (compareSegments s1 s2)
    if rel = .disjoint then rel else comparePathsLoop multi1 multi2 rel segs1 segs2
  | rel, [], [] => rel
  | rel, [], _ :: _ => if multi1 then combineRelationships rel .moreGeneral else .disjoint
  | rel, _ :: _, [] => if multi2 then combineRelationships rel .moreSpecific else .disjoint

/-- The `comparePaths` of `pattern.go`. -/
def pattern.comparePaths (p1 p2 : pattern) : relationship :=
  if p1.segments.length ≠ p2.segments.length ∧ !p1.lastMulti ∧ !p2.lastMulti then .disjoint
  else comparePathsLoop p1.lastMulti p2.lastMulti .equivalent p1.segments p2.segments

/-- The `comparePathsAndMethods` of `pattern.go`. -/
def pattern.comparePathsAndMethods (p1 p2 : pattern) : relationship :=
  let mrel := p1.compareMethods p2
  if mrel = .disjoint then .disjoint
  else combineRelationships mrel (p1.comparePaths p2)

/-- The `conflictsWith` of `pattern.go`: neither pattern has precedence over the other. -/
def pattern.conflictsWith (p1 p2 : pattern) : Bool :=
  if p1.host ≠ p2.host then false
  else
    let rel := p1.comparePathsAndMethods p2
    rel = .equivalent || rel = .overlaps

/-! ## `net/http/routing_tree.go` -/

mutual
/-- A node of the routing tree.  A leaf holds a pattern and its handler; an interior node
maps parts of the request (host, then method, then path segments) to children.  The child
with key `""` is the single wildcard (Go keeps it apart in `emptyChild`), the child with key
`"/"` a `{$}`; `multiChild`, always a leaf, is the child for a multi wildcard. -/
inductive routingNode (H : Type) where
  | mk (leaf : Option (pattern × H)) (children : childMap H) (multiChild : Option (pattern × H))
/-- The `mapping[string, *routingNode]` of a node, as an association list. -/
inductive childMap (H : Type) where
  | nil
  | cons (key : Str) (child : routingNode H) (rest : childMap H)
end

variable {H : Type}

/-- A new node, `&routingNode{}`. -/
def routingNode.empty : routingNode H := .mk none .nil none

/-- The children of a node. -/
def routingNode.children : routingNode H → childMap H
  | .mk _ cs _ => cs

/-- Lookup in the children: `findChild`, `nil` being `none`. -/
def childMap.find : childMap H → Str → Option (routingNode H)
  | .nil, _ => none
  | .cons k c rest, key => if k = key then some c else rest.find key

/-- The `findChild` of `routingNode`. -/
def routingNode.findChild (n : routingNode H) (key : Str) : Option (routingNode H) :=
  n.children.find key

/-- The child for `key` replaced by `f` of it, a new node being made first when there is
none (`addChild`); `none` when `f` panics. -/
def childMap.update (f : routingNode H → Option (routingNode H)) (key : Str) :
    childMap H → Option (childMap H)
  | .nil => (f .empty).map (fun c => .cons key c .nil)
  | .cons k c rest =>
    if k = key then (f c).map (fun c1 => .cons k c1 rest)
    else (childMap.update f key rest).map (fun rest1 => .cons k c rest1)

/-- The `addSegments` of `routingNode`, with `set` for the leaf; `none` is a panic
("non-nil leaf fields", "multi wildcard not last"). -/
def routingNode.addSegments (p : pattern) (h : H) : List segment → routingNode H → Option (routingNode H)
  | [], .mk leaf cs m => if leaf.isSome then none else some (.mk (some (p, h)) cs m)
  | seg :: segs, .mk leaf cs m =>
    if seg.multi then
      if segs ≠ [] then none else some (.mk leaf cs (some (p, h)))
    else if seg.wild then
      (cs.update (fun c => routingNode.addSegments p h segs c) []).map (fun cs1 => .mk leaf cs1 m)
    else
      (cs.update (fun c => routingNode.addSegments p h segs c) seg.s).map (fun cs1 => .mk leaf cs1 m)

/-- The `addPattern` of `routingNode`: the first level of the tree is the host, the second the
method, the remaining levels are the path. -/
def routingNode.addPattern (root : routingNode H) (p : pattern) (h : H) : Option (routingNode H) :=
  match root with
  | .mk leaf cs m =>
    (cs.update
      (fun hostNode =>
        match hostNode with
        | .mk leaf1 cs1 m1 =>
          (cs1.update (fun methodNode => methodNode.addSegments p h p.segments) p.method).map
            (fun cs2 => .mk leaf1 cs2 m1))
      p.host).map (fun cs1 => .mk leaf cs1 m)

/-- The `firstSegment` of `routing_tree.go`: the first segment of the path, unescaped if
possible, and the rest.  A path of only a slash gives `("/", "")`. -/
def firstSegment (path : Str) : Str × Str :=
  if path = ['/'] then (['/'], [])
  else
    let path := path.drop 1
    (pathUnescape (path.takeWhile (fun c => c != '/')), path.dropWhile (fun c => c != '/'))

mutual
/-- The `matchPath` of `routingNode`: the leaf that matches the path.  (The values matched
by wildcards are not kept.) -/
def routingNode.matchPath : routingNode H → Str → Option (pattern × H)
  | .mk leaf children multiChild, path =>
    if path = [] then leaf
    else
      match childMap.matchChild children (firstSegment path).1 (firstSegment path).2 with
      | some l => some l
      | none =>
        match (if (firstSegment path).1 ≠ ['/'] then
            childMap.matchChild children [] (firstSegment path).2 else none) with
        | some l => some l
        | none => multiChild
/-- The call `n.findChild(key).matchPath(path, ...)`. -/
def childMap.matchChild : childMap H → Str → Str → Option (pattern × H)
  | .nil, _, _ => none
  | .cons k c rest, key, path =>
    if k = key then routingNode.matchPath c path else childMap.matchChild rest key path
end

/-- The `matchMethodAndPath` of `routingNode`, on the result of a `findChild`. -/
def matchMethodAndPath (n : Option (routingNode H)) (method path : Str) : Option (pattern × H) :=
  match n with
  | none => none
  | some n =>
    match n.children.matchChild method path with
    | some l => some l
    | none =>
      match (if method = "HEAD".toList then n.children.matchChild "GET".toList path else none) with
      | some l => some l
      | none => n.children.matchChild [] path

/-- The `match` of `routingNode`: the leaf for the host, method and path. -/
def routingNode.treeMatch (root : routingNode H) (host method path : Str) : Option (pattern × H) :=
  match (if host ≠ [] then matchMethodAndPath (root.findChild host) method path else none) with
  | some l => some l
  | none => matchMethodAndPath (root.findChild []) method path

/-- The methods of the children (the empty child apart) whose subtree matches the path:
the `matchingMethodsPath` of `routingNode`. -/
def childMap.matchingMethodsPath : childMap H → Str → List Str
  | .nil, _ => []
  | .cons k c rest, path =>
    if k ≠ [] ∧ (c.matchPath path).isSome then k :: rest.matchingMethodsPath path
    else rest.matchingMethodsPath path

/-- The `matchingMethods` of `routingNode`. -/
def routingNode.matchingMethods (root : routingNode H) (host path : Str) : List Str :=
  let ofNode := fun (n : Option (routingNode H)) =>
    match n with
    | some n => n.children.matchingMethodsPath path
    | none => []
  let ms := (if host ≠ [] then ofNode (root.findChild host) else []) ++ ofNode (root.findChild [])
  if ms.contains "GET".toList then "HEAD".toList :: ms else ms

/-! ## `net/http/server.go`: `ServeMux` -/

/-- The `ServeMux`: the routing tree and the registered patterns. -/
structure ServeMux (H : Type) where
  tree : routingNode H
  patterns : List pattern

/-- The `NewServeMux` of `net/http`. -/
def NewServeMux : ServeMux H := { tree := .empty, patterns := [] }

/-- Why a registration panics. -/
inductive RegisterError where
  | invalidPattern
  | parsing (e : PatternError)
  | conflict (other : pattern)
  | treePanic
deriving DecidableEq, Repr

/-- The `registerErr` of `ServeMux`.  The routing index that Go consults only narrows the
patterns to test; the test itself is `conflictsWith` against the registered patterns. -/
def ServeMux.registerErr (mux : ServeMux H) (patstr : Str) (handler : H) :
    Except RegisterError (ServeMux H) :=
  if patstr = [] then .error .invalidPattern
  else
    match parsePattern patstr with
    | .error e => .error (.parsing e)
    | .ok pat =>
      match mux.patterns.find? (fun pat2 => pat.conflictsWith pat2) with
      | some pat2 => .error (.conflict pat2)
      | none =>
        match mux.tree.addPattern pat handler with
        | none => .error .treePanic
        | some tree => .ok { tree := tree, patterns := mux.patterns ++ [pat] }

/-- The `Handle` of `ServeMux` (`HandleFunc` is the same on a function): it panics when
`registerErr` gives an error. -/
def ServeMux.Handle (mux : ServeMux H) (patstr : Str) (handler : H) :
    Except RegisterError (ServeMux H) :=
  mux.registerErr patstr handler

/-- The fields of `url.URL` that routing reads.  `EscapedPath` holds the value of
`r.URL.EscapedPath()`: for the path `/` it is `/`, and for the request target `*` it is `*`. -/
structure URL where
  Host : Str
  EscapedPath : Str
  RawQuery : Str
deriving DecidableEq, Repr

/-- The fields of `http.Request` that routing and the handlers read. -/
structure Request where
  Method : Str
  Host : Str
  RequestURI : Str
  URL : URL
  RemoteAddr : Str
  Header : List (Str × Str)
deriving DecidableEq, Repr

/-- What the server's request reader guarantees of a request it hands to the handler:
the target `*` is parsed to the path `*` (`url.ParseRequestURI`). -/
def Request.incoming (r : Request) : Prop :=
  r.RequestURI = ['*'] → r.URL.EscapedPath = ['*']

instance (r : Request) : Decidable r.incoming := by
  unfold Request.incoming; infer_instance

/-- The handler that `ServeMux` runs for a request: one registered with `Handle`, or one of
those that the mux makes itself. -/
inductive Dispatch (H : Type) where
  /-- a handler registered on the mux -/
  | registered (h : H)
  /-- the redirect handler that the mux makes with `RedirectHandler`; its status and its
  target are not kept -/
  | redirect
  /-- the 405 handler with its `Allow` header -/
  | methodNotAllowed (allow : List Str)
  /-- the handler `NotFoundHandler()`, the 404 of the mux itself -/
  | muxNotFound
  /-- the 400 of `ServeHTTP` for the request target `*` -/
  | badRequest
deriving DecidableEq, Repr

/-- The `exactMatch` of `server.go`: the leaf matches the path with its multi wildcard, if
it has one, matching nothing. -/
def exactMatch (n : Option (pattern × H)) (path : Str) : Bool :=
  match n with
  | none => false
  | some (pat, _) =>
    if !pat.lastMulti then true
    else if path.length > 0 ∧ path.getLast? ≠ some '/' then false
    else pat.segments.length = path.count '/'

/-- The `matchOrRedirect` of `ServeMux`: the matching leaf, and whether to redirect to the
path with a trailing slash.  `withURL` is `u != nil`. -/
def ServeMux.matchOrRedirect (mux : ServeMux H) (host method path : Str) (withURL : Bool) :
    Option (pattern × H) × Bool :=
  let n := mux.tree.treeMatch host method path
  if !exactMatch n path ∧ withURL ∧ path.getLast? ≠ some '/' then
    if exactMatch (mux.tree.treeMatch host method (path ++ ['/'])) (path ++ ['/']) then (none, true)
    else (n, false)
  else (n, false)

/-- The `matchingMethods` of `ServeMux`. -/
def ServeMux.matchingMethods (mux : ServeMux H) (host path : Str) : List Str :=
  let ms := mux.tree.matchingMethods host path
  if path.getLast? ≠ some '/' then ms ++ mux.tree.matchingMethods host (path ++ ['/']) else ms

/-- The `stripHostPort` of `server.go`.  `splitHostPort` stands for `net.SplitHostPort`,
giving the host or `none` for an error. -/
def stripHostPort (splitHostPort : Str → Option Str) (h : Str) : Str :=
  if ¬ h.contains ':' then h
  else
    match splitHostPort h with
    | none => h
    | some host => host

/-- The end of `findHandler`: the matched leaf's handler, or 405, or 404. -/
def ServeMux.leafOr (mux : ServeMux H) (n : Option (pattern × H)) (host path : Str) : Dispatch H :=
  match n with
  | some (_, h) => .registered h
  | none =>
    let allowedMethods := mux.matchingMethods host path
    if allowedMethods.length > 0 then .methodNotAllowed allowedMethods else .muxNotFound

/-- The `findHandler` of `ServeMux`. -/
def ServeMux.findHandler (splitHostPort : Str → Option Str) (mux : ServeMux H) (r : Request) :
    Dispatch H :=
  if r.Method = "CONNECT".toList then
    -- CONNECT requests are not canonicalized
    if (mux.matchOrRedirect r.URL.Host r.Method r.URL.EscapedPath true).2 then .redirect
    else
      mux.leafOr (mux.matchOrRedirect r.Host r.Method r.URL.EscapedPath false).1
        r.URL.Host r.URL.EscapedPath
  else
    let host := stripHostPort splitHostPort r.Host
    let path := cleanPath r.URL.EscapedPath
    if (mux.matchOrRedirect host r.Method path true).2 then .redirect
    else if path ≠ r.URL.EscapedPath then .redirect
    else mux.leafOr (mux.matchOrRedirect host r.Method path true).1 host path

/-- The `ServeHTTP` of `ServeMux`: the handler that answers the request. -/
def ServeMux.ServeHTTP (splitHostPort : Str → Option Str) (mux : ServeMux H) (r : Request) :
    Dispatch H :=
  if r.RequestURI = ['*'] then .badRequest
  else mux.findHandler splitHostPort r

/-! ## `src/main.go` -/

/-- The constant `time.Second`, in nanoseconds (a `time.Duration` counts nanoseconds). -/
def Second : Nat := 1000000000

/-- Line 17: `shutDownTimeout = 10 * time.Second`. -/
def shutDownTimeout : Nat := 10 * Second

/-- Line 18: `httpReadTimeout = 5 * time.Second`. -/
def httpReadTimeout : Nat := 5 * Second

/-- A Go `error` value that is not nil. -/
inductive GoErr where
  /-- the error `http.ErrServerClosed` -/
  | ErrServerClosed
  /-- any other error, with its text -/
  | other (text : Str)
deriving DecidableEq, Repr

/-- The `err.Error()` of an error. -/
def GoErr.Error : GoErr → Str
  | .ErrServerClosed => "http: Server closed".toList
  | .other text => text

/-- Line 52: `err != nil && !errors.Is(err, http.ErrServerClosed)`. -/
def unexpected (err : Option GoErr) : Bool :=
  match err with
  | none => false
  | some e => e != .ErrServerClosed

/-- The timeouts and the address of an `http.Server`; a field that a composite literal does
not set has Go's zero value, 0.  The `Handler` field is the mux, kept in the process state. -/
structure Server where
  Addr : Str
  ReadTimeout : Nat
  ReadHeaderTimeout : Nat
  WriteTimeout : Nat
  IdleTimeout : Nat
deriving DecidableEq, Repr

/-- The `readHeaderTimeout` of `http.Server`: the time allowed to read the request headers
(0 is no limit). -/
def Server.readHeaderTimeout (srv : Server) : Nat :=
  if srv.ReadHeaderTimeout ≠ 0 then srv.ReadHeaderTimeout else srv.ReadTimeout

/-- The handlers that `main` registers: `ipInfo{db: db}` (line 41) and `notFound` (line 42). -/
inductive Handler (DB : Type) where
  | ipInfo (db : DB)
  | notFound
deriving DecidableEq, Repr

/-- The first pattern of `main`, `"GET /{$}"`. -/
def rootPattern : Str := "GET /\x7b$\x7d".toList

/-- The second pattern of `main`, `"/"`. -/
def restPattern : Str := "/".toList

/-- Lines 38 to 42 of `main`: the new mux with the two routes; an error is a panic. -/
def buildMux {DB : Type} (db : DB) : Except RegisterError (ServeMux (Handler DB)) :=
  match (NewServeMux : ServeMux (Handler DB)).Handle rootPattern (.ipInfo db) with
  | .error e => .error e
  | .ok mux => mux.Handle restPattern .notFound

/-- What `flag.Parse()` (line 24) makes of the command line.  The flag set of the command
line handles errors with `flag.ExitOnError`: on `flag.ErrHelp` it calls `os.Exit(0)`, on any
other error `os.Exit(2)`. -/
inductive FlagResult where
  /-- every argument is a flag that `main` has defined, with a value: `Parse` returns -/
  | parsed
  /-- the command line asks for help (`-h`, `-help`): the usage is printed, then `os.Exit(0)` -/
  | help
  /-- an argument is no valid flag: the error is printed, then `os.Exit(2)` -/
  | invalid
deriving DecidableEq, Repr

/-- The status with which `flag.Parse()` ends the process, if it does. -/
def FlagResult.exitCode : FlagResult → Option Nat
  | .parsed => none
  | .help => some 0
  | .invalid => some 2

/-- What the process is run with, and what the world outside `main` answers.
`addrFlag` and `dbFlag` are the values given to `-addr` and `-db`, if any, and `flagResult`
says whether the command line as a whole is one that `flag.Parse()` accepts. -/
structure Env (DB : Type) where
  addrFlag : Option Str
  dbFlag : Option Str
  flagResult : FlagResult
  /-- the function `geoip2.Open` -/
  openDB : Str → Except GoErr DB
  /-- what `server.ListenAndServe()` returns, when it returns -/
  listenResult : Option GoErr
  /-- what `server.Shutdown(ctx)` returns -/
  shutdownResult : Option GoErr
  /-- what `db.Close()` returns -/
  closeResult : Option GoErr

/-- The value of a string flag after `flag.Parse()`: the one given, or the default. -/
def flagString (given : Option Str) (value : Str) : Str :=
  match given with
  | some v => v
  | none => value

/-- Line 22: `addr := flag.String("addr", ":8080", ...)`. -/
def Env.addr {DB : Type} (env : Env DB) : Str := flagString env.addrFlag ":8080".toList

/-- Line 23: `dbFile := flag.String("db", "GeoLite2-City.mmdb", ...)`. -/
def Env.dbFile {DB : Type} (env : Env DB) : Str := flagString env.dbFlag "GeoLite2-City.mmdb".toList

/-- Lines 44 to 48: the `http.Server` literal. -/
def newServer (addr : Str) : Server :=
  { Addr := addr, ReadTimeout := httpReadTimeout, ReadHeaderTimeout := 0, WriteTimeout := 0,
    IdleTimeout := 0 }

/-- Who acts: the main goroutine, the goroutine of line 50, or the world (a signal, a
client). -/
inductive Tid where
  | main
  | server
  | world
deriving DecidableEq, Repr

/-- The level of a log record. -/
inductive Level where
  | Info
  | Error
deriving DecidableEq, Repr

/-- What a step does, as far as it can be seen from outside. -/
inductive Action where
  /-- line 24: `flag.Parse()` with what it makes of the command line -/
  | flagParse (result : FlagResult)
  /-- line 26: `geoip2.Open(*dbFile)` -/
  | openDB (file : Str)
  /-- a call of `slog.Info` or `slog.Error` with its message and attributes -/
  | log (level : Level) (msg : String) (attrs : List (String × Str))
  /-- a call of `os.Exit(code)` -/
  | exit (code : Nat)
  /-- lines 38 to 42: `NewServeMux`, `Handle`, `HandleFunc` -/
  | routes
  /-- a panic of route registration -/
  | panic
  /-- lines 44 to 48 -/
  | newServer (srv : Server)
  /-- line 50: `go func() ...` -/
  | go
  /-- line 52: `server.ListenAndServe()` is called -/
  | listenAndServe (addr : Str)
  /-- line 52: `server.ListenAndServe()` returns -/
  | listenReturn (err : Option GoErr)
  /-- lines 58 and 59: `signal.Notify(quit, SIGINT, SIGTERM)` -/
  | notify
  /-- SIGINT or SIGTERM is delivered to the process -/
  | signal
  /-- line 60: `<-quit` returns, with the clock at that moment -/
  | receive (now : Nat)
  /-- line 63: `context.WithTimeout`, with the clock at that moment (`time.Now()`) and the
  deadline that the context gets -/
  | withTimeout (now deadline : Nat)
  /-- line 66: `server.Shutdown(ctx)` is called, with the deadline of `ctx` -/
  | shutdown (deadline : Nat)
  /-- line 66: `server.Shutdown(ctx)` returns -/
  | shutdownReturn (err : Option GoErr)
  /-- line 64, deferred: `cancel()` -/
  | cancel
  /-- line 32, deferred: `db.Close()` with what it returns -/
  | close (err : Option GoErr)
  /-- the return of `main` -/
  | mainReturn
  /-- the server hands a request to the mux -/
  | serve (r : Request)
deriving DecidableEq, Repr

/-- An action and who did it. -/
structure Event where
  tid : Tid
  act : Action
deriving DecidableEq, Repr

/-- Where the main goroutine is: the statement it runs next. -/
inductive MainPC where
  /-- lines 22 to 24 -/
  | flags
  /-- the `os.Exit` inside `flag.Parse()` -/
  | exitFlags
  /-- line 26 -/
  | openDB
  /-- line 28 -/
  | logOpenErr
  /-- line 29 -/
  | exitOpenErr
  /-- lines 38 to 42 -/
  | routes
  /-- lines 44 to 48 -/
  | newServer
  /-- line 50 -/
  | spawn
  /-- lines 58, 59 -/
  | notify
  /-- line 60 -/
  | wait
  /-- line 62 -/
  | logShutting
  /-- line 63 -/
  | withTimeout
  /-- line 66, the call -/
  | shutdown
  /-- line 66, waiting for `Shutdown` to return -/
  | shutdownWait
  /-- line 67 -/
  | logForced
  /-- line 70 -/
  | logExiting
  /-- line 64, run at return -/
  | deferCancel
  /-- line 32, run at return -/
  | deferClose
  /-- line 34 -/
  | logCloseErr
  /-- the return of `main` -/
  | ret
  /-- after the return of `main` -/
  | returned
  /-- after the `os.Exit` inside `flag.Parse()` -/
  | flagsExited
  /-- after the `os.Exit(1)` of line 29 -/
  | exited
  /-- route registration has panicked -/
  | panicked
deriving DecidableEq, Repr

/-- Where the goroutine of line 50 is. -/
inductive ServerPC where
  /-- not started yet -/
  | idle
  /-- line 51 -/
  | logStarting
  /-- line 52, the call -/
  | listen
  /-- line 52, inside `ListenAndServe` -/
  | serving
  /-- line 53 -/
  | logServerErr
  /-- line 54 -/
  | exit
  /-- after the `os.Exit(1)` of line 54 -/
  | exited
  /-- the function has returned -/
  | returned
deriving DecidableEq, Repr

/-- The state of the process. -/
structure State (DB : Type) where
  main : MainPC
  server : ServerPC
  /-- the variable `db` -/
  db : Option DB
  /-- the variable `mux` -/
  mux : Option (ServeMux (Handler DB))
  /-- the variable `server` -/
  srv : Option Server
  /-- whether `signal.Notify` has run -/
  notified : Bool
  /-- a signal waits in the channel `quit` (its buffer holds one) -/
  quit : Bool
  /-- the exit status, once the process has ended by `os.Exit`, a panic or the return of
  `main` -/
  exit : Option Nat
  /-- whether a signal has ended the process (it then has no exit status) -/
  killed : Bool
  /-- the clock (`time.Now()`), in nanoseconds -/
  clock : Nat
  /-- the clock when `<-quit` returned (line 60) -/
  recvAt : Nat
  /-- the clock when line 63 made the context `ctx` -/
  ctxAt : Nat
  /-- what has happened, oldest first -/
  trace : List Event

/-- The process as it starts. -/
def State.init {DB : Type} : State DB :=
  { main := .flags, server := .idle, db := none, mux := none, srv := none, notified := false,
    quit := false, exit := none, killed := false, clock := 0, recvAt := 0, ctxAt := 0,
    trace := [] }

/-- What moves next: a goroutine runs its next statement, a signal (SIGINT or SIGTERM)
arrives, a request is handed to the handler, or time passes. -/
inductive Label where
  | main
  | server
  | signal
  | request (r : Request)
  | tick (nanoseconds : Nat)
deriving DecidableEq, Repr

variable {DB : Type}

/-- The state after the main goroutine has done `act` and moved to `pc`. -/
def State.mainTo (s : State DB) (pc : MainPC) (act : Action) : State DB :=
  { s with main := pc, trace := s.trace ++ [⟨.main, act⟩] }

/-- The state after the goroutine of line 50 has done `act` and moved to `pc`. -/
def State.serverTo (s : State DB) (pc : ServerPC) (act : Action) : State DB :=
  { s with server := pc, trace := s.trace ++ [⟨.server, act⟩] }

/-- The log record of line 28. -/
def logOpenErr (env : Env DB) (e : GoErr) : Action :=
  .log .Error "can't open GeoIP2 database" [("err", e.Error), ("db", env.dbFile)]

/-- The log record of line 34. -/
def logCloseErr (env : Env DB) (e : GoErr) : Action :=
  .log .Error "can't close GeoIP2 database" [("err", e.Error), ("db", env.dbFile)]

/-- The log record of line 67. -/
def logForced (e : GoErr) : Action :=
  .log .Error "Server forced to shutdown" [("err", e.Error)]

/-- The log record of line 53. -/
def logServerErr (e : GoErr) : Action :=
  .log .Error "HTTP server error" [("err", e.Error)]

/-- The function `main` of `src/main.go` (lines 21 to 71), one statement at a time: the state
after the statement at which the main goroutine stands, with the deferred calls run at the
return.  `none` when the goroutine cannot move (it waits at `<-quit`, or it has ended). -/
def main (env : Env DB) (s : State DB) : Option (State DB) :=
  match s.main with
  | .flags =>
    match env.flagResult with
    | .parsed => some (s.mainTo .openDB (.flagParse .parsed))
    | .help => some (s.mainTo .exitFlags (.flagParse .help))
    | .invalid => some (s.mainTo .exitFlags (.flagParse .invalid))
  | .exitFlags =>
    match env.flagResult.exitCode with
    | some code => some { s.mainTo .flagsExited (.exit code) with exit := some code }
    | none => none
  | .openDB =>
    match env.openDB env.dbFile with
    | .error _ => some (s.mainTo .logOpenErr (.openDB env.dbFile))
    | .ok db => some { s.mainTo .routes (.openDB env.dbFile) with db := some db }
  | .logOpenErr =>
    match env.openDB env.dbFile with
    | .error e => some (s.mainTo .exitOpenErr (logOpenErr env e))
    | .ok _ => none
  | .exitOpenErr => some { s.mainTo .exited (.exit 1) with exit := some 1 }
  | .routes =>
    match s.db with
    | none => none
    | some db =>
      match buildMux db with
      | .ok mux => some { s.mainTo .newServer .routes with mux := some mux }
      | .error _ => some { s.mainTo .panicked .panic with exit := some 2 }
  | .newServer => some { s.mainTo .spawn (.newServer (newServer env.addr)) with srv := some (newServer env.addr) }
  | .spawn => some { s.mainTo .notify .go with server := .logStarting }
  | .notify => some { s.mainTo .wait .notify with notified := true }
  | .wait =>
    if s.quit then
      some { s.mainTo .logShutting (.receive s.clock) with quit := false, recvAt := s.clock }
    else none
  | .logShutting => some (s.mainTo .withTimeout (.log .Info "Shutting down server..." []))
  | .withTimeout =>
    some { s.mainTo .shutdown (.withTimeout s.clock (s.clock + shutDownTimeout)) with
      ctxAt := s.clock }
  | .shutdown => some (s.mainTo .shutdownWait (.shutdown (s.ctxAt + shutDownTimeout)))
  | .shutdownWait =>
    match env.shutdownResult with
    | some _ => some (s.mainTo .logForced (.shutdownReturn env.shutdownResult))
    | none => some (s.mainTo .logExiting (.shutdownReturn env.shutdownResult))
  | .logForced =>
    match env.shutdownResult with
    | some e => some (s.mainTo .logExiting (logForced e))
    | none => none
  | .logExiting => some (s.mainTo .deferCancel (.log .Info "Server exiting" []))
  | .deferCancel => some (s.mainTo .deferClose .cancel)
  | .deferClose =>
    match env.closeResult with
    | some _ => some (s.mainTo .logCloseErr (.close env.closeResult))
    | none => some (s.mainTo .ret (.close env.closeResult))
  | .logCloseErr =>
    match env.closeResult with
    | some e => some (s.mainTo .ret (logCloseErr env e))
    | none => none
  | .ret => some { s.mainTo .returned .mainReturn with exit := some 0 }
  | .returned => none
  | .flagsExited => none
  | .exited => none
  | .panicked => none

/-- The function literal of lines 50 to 56, run as a goroutine, one statement at a time.
The statement inside `ListenAndServe` is the return of that call, which the world decides. -/
def stepServer (env : Env DB) (s : State DB) : Option (State DB) :=
  match s.server with
  | .idle => none
  | .logStarting =>
    match s.srv with
    | some srv => some (s.serverTo .listen (.log .Info "Starting HTTP server" [("addr", srv.Addr)]))
    | none => none
  | .listen =>
    match s.srv with
    | some srv => some (s.serverTo .serving (.listenAndServe srv.Addr))
    | none => none
  | .serving =>
    if unexpected env.listenResult then some (s.serverTo .logServerErr (.listenReturn env.listenResult))
    else some (s.serverTo .returned (.listenReturn env.listenResult))
  | .logServerErr =>
    match env.listenResult with
    | some e => some (s.serverTo .exit (logServerErr e))
    | none => none
  | .exit => some { s.serverTo .exited (.exit 1) with exit := some 1 }
  | .exited => none
  | .returned => none

/-- One step of the process.  Nothing moves once the process has ended.  A signal that
arrives before `signal.Notify` has run ends the process (the default action of SIGINT and
SIGTERM); after that it is put into the channel `quit`, which keeps one.  A request is served
while `ListenAndServe` is running.  Time passes at any moment. -/
def step (env : Env DB) (l : Label) (s : State DB) : Option (State DB) :=
  match s.exit with
  | some _ => none
  | none =>
    if s.killed then none
    else
      match l with
      | .main => main env s
      | .server => stepServer env s
      | .signal =>
        if s.notified then some { s with quit := true, trace := s.trace ++ [⟨.world, .signal⟩] }
        else some { s with killed := true }
      | .request r =>
        if s.server = .serving then some { s with trace := s.trace ++ [⟨.world, .serve r⟩] }
        else none
      | .tick d => some { s with clock := s.clock + d }

/-- The state after the steps of a schedule, `none` when one of them cannot be taken. -/
def run (env : Env DB) : List Label → State DB → Option (State DB)
  | [], s => some s
  | l :: ls, s =>
    match step env l s with
    | some s1 => run env ls s1
    | none => none

/-- The state that a schedule leads to from the start of the process. -/
def exec (env : Env DB) (sched : List Label) : Option (State DB) :=
  run env sched .init


/-- The pattern that `parsePattern` gives for `"GET /{$}"`. -/
def rootPat : pattern :=
  { str := rootPattern, method := "GET".toList, host := [],
    segments := [{ s := ['/'], wild := false, multi := false }] }

/-- The pattern that `parsePattern` gives for `"/"`. -/
def restPat : pattern :=
  { str := restPattern, method := [], host := [], segments := [{ s := [], wild := true, multi := true }] }

/-- The node below the method `GET`: its child `/` is the leaf of `GET /{$}`, with the
handler `h`. -/
def getNode (h : H) : routingNode H :=
  .mk none (.cons ['/'] (.mk (some (rootPat, h)) .nil none) .nil) none

/-- The node below the empty method: its multi child is the leaf of `/`, with the handler `h`. -/
def anyNode (h : H) : routingNode H :=
  .mk none .nil (some (restPat, h))

/-- The node below the empty host when both patterns are registered. -/
def hostNode (h1 h2 : H) : routingNode H :=
  .mk none (.cons "GET".toList (getNode h1) (.cons [] (anyNode h2) .nil)) none

/-- The mux that lines 38 to 42 build. -/
def mainMux (db : DB) : ServeMux (Handler DB) :=
  { tree := .mk none (.cons [] (hostNode (.ipInfo db) .notFound) .nil) none,
    patterns := [rootPat, restPat] }

/-- Whether the pattern, registered alone, matches the host, method and path. -/
def pattern.matchesRequest (pat : pattern) (host method path : Str) : Bool :=
  match (routingNode.empty : routingNode Unit).addPattern pat () with
  | some tree => (tree.treeMatch host method path).isSome
  | none => false

/-- The path is matched by the leaf of `GET /{$}`: its first segment is the slash (also
when it is an escaped one) and nothing follows. -/
def rootPath (p : Str) : Prop :=
  p ≠ [] ∧ (firstSegment p).1 = ['/'] ∧ (firstSegment p).2 = []

instance (p : Str) : Decidable (rootPath p) := by
  unfold rootPath; infer_instance

/-! ### What each goroutine has done when it stands at a statement -/

/-- The actions of one goroutine in a trace, in order. -/
def actionsOf (t : Tid) (tr : List Event) : List Action :=
  (tr.filter (fun e => e.tid = t)).map Event.act

/-- The amount by which a step moves the clock. -/
def Label.elapsed : Label → Nat
  | .tick d => d
  | _ => 0

/-- The `os.Exit` inside `flag.Parse()`, when the command line is not accepted. -/
def flagExit (env : Env DB) : List Action :=
  match env.flagResult.exitCode with
  | some code => [.exit code]
  | none => []

/-- The record of line 28, when `geoip2.Open` gives an error. -/
def openErrLog (env : Env DB) : List Action :=
  match env.openDB env.dbFile with
  | .error e => [logOpenErr env e]
  | .ok _ => []

/-- The record of line 67, when `Shutdown` gives an error. -/
def forcedLog (env : Env DB) : List Action :=
  match env.shutdownResult with
  | some e => [logForced e]
  | none => []

/-- The record of line 34, when `Close` gives an error. -/
def closeErrLog (env : Env DB) : List Action :=
  match env.closeResult with
  | some e => [logCloseErr env e]
  | none => []

/-- Lines 24 to 59, when the flags are accepted and the database opens: what `main` does
before it waits for a signal. -/
def startup (env : Env DB) : List Action :=
  [.flagParse .parsed, .openDB env.dbFile, .routes, .newServer (newServer env.addr), .go, .notify]

/-- Lines 60 to 66: from the signal, taken when the clock is `t0`, to the return of
`Shutdown`, with the context made when the clock is `t1`. -/
def drain (env : Env DB) (t0 t1 : Nat) : List Action :=
  [.receive t0, .log .Info "Shutting down server..." [],
   .withTimeout t1 (t1 + shutDownTimeout), .shutdown (t1 + shutDownTimeout),
   .shutdownReturn env.shutdownResult]

/-- Lines 67 to 71 with the deferred calls: what `main` does from the return of `Shutdown`
to its own return. -/
def wrapUp (env : Env DB) : List Action :=
  forcedLog env ++ [.log .Info "Server exiting" [], .cancel, .close env.closeResult] ++
    closeErrLog env ++ [.mainReturn]

/-- Lines 60 to 71 with the deferred calls: what `main` does from the signal to its return. -/
def shutdownActions (env : Env DB) (t0 t1 : Nat) : List Action :=
  drain env t0 t1 ++ wrapUp env

/-- Lines 62 to 71 with the deferred calls: what `main` does once it has taken the signal,
with the context made when the clock is `t1`. -/
def afterSignal (env : Env DB) (t1 : Nat) : List Action :=
  [.log .Info "Shutting down server..." [], .withTimeout t1 (t1 + shutDownTimeout),
   .shutdown (t1 + shutDownTimeout), .shutdownReturn env.shutdownResult] ++ wrapUp env

/-- What `main` has done when it stands at a statement; `t0` is the clock when `<-quit`
returned and `t1` the clock when line 63 ran. -/
def mainActions (env : Env DB) (t0 t1 : Nat) : MainPC → List Action
  | .flags => []
  | .exitFlags => [.flagParse env.flagResult]
  | .flagsExited => [.flagParse env.flagResult] ++ flagExit env
  | .openDB => [.flagParse .parsed]
  | .logOpenErr => [.flagParse .parsed, .openDB env.dbFile]
  | .exitOpenErr => [.flagParse .parsed, .openDB env.dbFile] ++ openErrLog env
  | .exited => [.flagParse .parsed, .openDB env.dbFile] ++ openErrLog env ++ [.exit 1]
  | .routes => [.flagParse .parsed, .openDB env.dbFile]
  | .panicked => [.flagParse .parsed, .openDB env.dbFile, .panic]
  | .newServer => [.flagParse .parsed, .openDB env.dbFile, .routes]
  | .spawn => [.flagParse .parsed, .openDB env.dbFile, .routes, .newServer (newServer env.addr)]
  | .notify =>
    [.flagParse .parsed, .openDB env.dbFile, .routes, .newServer (newServer env.addr), .go]
  | .wait => startup env
  | .logShutting => startup env ++ [.receive t0]
  | .withTimeout => startup env ++ [.receive t0, .log .Info "Shutting down server..." []]
  | .shutdown =>
    startup env ++ [.receive t0, .log .Info "Shutting down server..." [],
      .withTimeout t1 (t1 + shutDownTimeout)]
  | .shutdownWait =>
    startup env ++ [.receive t0, .log .Info "Shutting down server..." [],
      .withTimeout t1 (t1 + shutDownTimeout), .shutdown (t1 + shutDownTimeout)]
  | .logForced => startup env ++ drain env t0 t1
  | .logExiting => startup env ++ drain env t0 t1 ++ forcedLog env
  | .deferCancel =>
    startup env ++ drain env t0 t1 ++ forcedLog env ++ [.log .Info "Server exiting" []]
  | .deferClose =>
    startup env ++ drain env t0 t1 ++ forcedLog env ++ [.log .Info "Server exiting" [], .cancel]
  | .logCloseErr =>
    startup env ++ drain env t0 t1 ++ forcedLog env ++
      [.log .Info "Server exiting" [], .cancel, .close env.closeResult]
  | .ret =>
    startup env ++ drain env t0 t1 ++ forcedLog env ++
      [.log .Info "Server exiting" [], .cancel, .close env.closeResult] ++ closeErrLog env
  | .returned => startup env ++ shutdownActions env t0 t1

/-- The record of line 53, when `ListenAndServe` gives an error. -/
def serverErrLog (env : Env DB) : List Action :=
  match env.listenResult with
  | some e => [logServerErr e]
  | none => []

/-- What the goroutine of line 50 has done when it stands at a statement. -/
def serverActions (env : Env DB) : ServerPC → List Action
  | .idle => []
  | .logStarting => []
  | .listen => [.log .Info "Starting HTTP server" [("addr", env.addr)]]
  | .serving => [.log .Info "Starting HTTP server" [("addr", env.addr)], .listenAndServe env.addr]
  | .logServerErr =>
    [.log .Info "Starting HTTP server" [("addr", env.addr)], .listenAndServe env.addr,
      .listenReturn env.listenResult]
  | .exit =>
    [.log .Info "Starting HTTP server" [("addr", env.addr)], .listenAndServe env.addr,
      .listenReturn env.listenResult] ++ serverErrLog env
  | .exited =>
    [.log .Info "Starting HTTP server" [("addr", env.addr)], .listenAndServe env.addr,
      .listenReturn env.listenResult] ++ serverErrLog env ++ [.exit 1]
  | .returned =>
    [.log .Info "Starting HTTP server" [("addr", env.addr)], .listenAndServe env.addr,
      .listenReturn env.listenResult]

/-- The statements of `main` on the path of a failed `geoip2.Open`. -/
def MainPC.failPath : MainPC → Bool
  | .logOpenErr => true
  | .exitOpenErr => true
  | .exited => true
  | _ => false

/-- The statements of `main` on the path of a command line that `flag.Parse()` does not
accept. -/
def MainPC.flagFail : MainPC → Bool
  | .exitFlags => true
  | .flagsExited => true
  | _ => false

/-- The statements of `main` after line 26: `geoip2.Open` has returned. -/
def MainPC.opened : MainPC → Bool
  | .flags => false
  | .exitFlags => false
  | .flagsExited => false
  | .openDB => false
  | _ => true

/-- The statements of `main` from line 58 on: the goroutine of line 50 has been started. -/
def MainPC.spawned : MainPC → Bool
  | .flags => false
  | .exitFlags => false
  | .flagsExited => false
  | .openDB => false
  | .logOpenErr => false
  | .exitOpenErr => false
  | .exited => false
  | .routes => false
  | .panicked => false
  | .newServer => false
  | .spawn => false
  | _ => true

/-- The statements of `main` from line 60 on: `signal.Notify` has run. -/
def MainPC.listening : MainPC → Bool
  | .notify => false
  | pc => pc.spawned

/-- The statements of `main` from line 62 on: `<-quit` has returned. -/
def MainPC.received : MainPC → Bool
  | .wait => false
  | pc => pc.listening

/-- The statements of `main` from line 66 on: line 63 has made the context. -/
def MainPC.ctxMade : MainPC → Bool
  | .logShutting => false
  | .withTimeout => false
  | pc => pc.received

/-- The variable `db` when `main` stands at a statement. -/
def dbAt (env : Env DB) (pc : MainPC) : Option DB :=
  if pc.opened then (env.openDB env.dbFile).toOption else none

/-- The variable `mux` when `main` stands at a statement. -/
def muxSet : MainPC → Bool
  | .flags => false
  | .exitFlags => false
  | .flagsExited => false
  | .openDB => false
  | .logOpenErr => false
  | .exitOpenErr => false
  | .exited => false
  | .routes => false
  | .panicked => false
  | _ => true

/-- The variable `server` is set when `main` stands at a statement. -/
def srvSet : MainPC → Bool
  | .newServer => false
  | pc => muxSet pc

/-- The statements of the goroutine of line 50 inside its `if`: `ListenAndServe` has returned an
error that is not `http.ErrServerClosed`. -/
def ServerPC.errPath : ServerPC → Bool
  | .logServerErr => true
  | .exit => true
  | .exited => true
  | _ => false

/-- The exit status when the goroutines stand at their statements. -/
def exitOf (env : Env DB) (m : MainPC) (g : ServerPC) : Option Nat :=
  match m with
  | .flagsExited => env.flagResult.exitCode
  | .exited => some 1
  | .panicked => some 2
  | .returned => some 0
  | _ => if g = .exited then some 1 else none

/-- The call of `Close` comes only after `Shutdown` has returned: before every `Close` in the trace
there is the return of `Shutdown`. -/
def closeAfterShutdown (env : Env DB) (tr : List Event) : Prop :=
  ∀ pre post t r, tr = pre ++ ⟨t, .close r⟩ :: post →
    ⟨.main, .shutdownReturn env.shutdownResult⟩ ∈ pre

/-- What holds of every state that the process reaches. -/
structure Inv (env : Env DB) (s : State DB) : Prop where
  mainDone : actionsOf .main s.trace = mainActions env s.recvAt s.ctxAt s.main
  serverDone : actionsOf .server s.trace = serverActions env s.server
  db_eq : s.db = dbAt env s.main
  mux_eq : s.mux = if muxSet s.main then (dbAt env s.main).map mainMux else none
  srv_eq : s.srv = if srvSet s.main then some (newServer env.addr) else none
  notified_eq : s.notified = s.main.listening
  exit_eq : s.exit = exitOf env s.main s.server
  not_panicked : s.main ≠ .panicked
  fail_iff : s.main.opened = true → (s.main.failPath ↔ ∃ e, env.openDB env.dbFile = .error e)
  server_idle : s.server = .idle ↔ s.main.spawned = false
  world_events : (∃ e ∈ s.trace, e.tid = .world) → s.main.spawned
  server_err : s.server.errPath = true → unexpected env.listenResult = true
  ends_once : s.server = .exited → s.main ≠ .returned ∧ s.main ≠ .exited
  world_acts : ∀ e ∈ s.trace, e.tid = .world → e.act = .signal ∨ ∃ r, e.act = .serve r
  close_order : closeAfterShutdown env s.trace
  flag_iff : s.main ≠ .flags → (s.main.flagFail = true ↔ env.flagResult ≠ .parsed)
  killed_exit : s.killed = true → s.exit = none ∧ s.notified = false
  recv_le : s.main.received = true → s.recvAt ≤ s.clock
  ctx_le : s.main.ctxMade = true → s.recvAt ≤ s.ctxAt ∧ s.ctxAt ≤ s.clock
  signal_seen : (s.quit = true ∨ s.main.received = true) → (⟨.world, .signal⟩ : Event) ∈ s.trace
  err_seen : (s.main = .logForced → env.shutdownResult ≠ none) ∧
    (s.main = .logCloseErr → env.closeResult ≠ none)
/-! ## The handlers and the database (declared outside `src/main.go`) -/

/-- Modelled from the spec: the outcome of `GeoDatabase.lookup` of §4.1 (the geoip2 library is
not in src/): a record, no record, or an error. -/
inductive LookupResult (Rec : Type) where
  | found (record : Rec)
  | notFound
  | error (e : GoErr)

/-- Modelled from the spec: what a handler answers, as far as §4.2 and §4.3 say it (the
handlers `ipInfo` and `notFound` are not in src/): status, content type and body. -/
structure Response where
  status : Nat
  contentType : Str
  body : Str
deriving DecidableEq, Repr

/-- Modelled from the spec: what RequestHandler (§4.2) works with and src/ does not hold: the
client address of the connection, the lookup in the opened database, the serialization of a
record, and the bodies that the spec leaves to the implementer. -/
structure GeoLib (DB Rec : Type) where
  clientAddress : Request → Option Str
  lookup : DB → Str → LookupResult Rec
  encode : Rec → Str
  badAddressBody : Str
  noRecordBody : Str
  errorBody : Str

/-- Modelled from the spec: RequestHandler, §4.2 steps 1 to 5 (the `ServeHTTP` of `ipInfo` is
not in src/main.go).  No record is answered with 404, the first of the two choices of step 4. -/
def ipInfo.ServeHTTP {Rec : Type} (lib : GeoLib DB Rec) (db : DB) (r : Request) : Response :=
  match lib.clientAddress r with
  | none => { status := 400, contentType := "text/plain".toList, body := lib.badAddressBody }
  | some ip =>
    match lib.lookup db ip with
    | .found record =>
      { status := 200, contentType := "application/json".toList, body := lib.encode record }
    | .notFound =>
      { status := 404, contentType := "application/json".toList, body := lib.noRecordBody }
    | .error _ => { status := 500, contentType := "text/plain".toList, body := lib.errorBody }

/-- Modelled from the spec: the 404 handler of §4.3, "HTTP 404 with a minimal plain-text body
(e.g. "not found")" (the function `notFound` is not in src/main.go). -/
def notFound (_ : Request) : Response :=
  { status := 404, contentType := "text/plain".toList, body := "not found".toList }

/-- The answer of a handler that `main` registers. -/
def Handler.ServeHTTP {Rec : Type} (lib : GeoLib DB Rec) : Handler DB → Request → Response
  | .ipInfo db, r => ipInfo.ServeHTTP lib db r
  | .notFound, r => HttpInspector.notFound r

/-- The answer of the server when the mux runs a registered handler; the answers of the
handlers that the mux makes itself (redirect, 405, 404, 400) are not described. -/
def respond {Rec : Type} (lib : GeoLib DB Rec) (splitHostPort : Str → Option Str)
    (mux : ServeMux (Handler DB)) (r : Request) : Option Response :=
  match mux.ServeHTTP splitHostPort r with
  | .registered h => some (h.ServeHTTP lib r)
  | _ => none

/-- Modelled from the spec: the `CityRecord` of §3 with the fields of the scenario of §8.  The
coordinates are kept as decimal numerals; floating point is not modelled. -/
structure CityRecord where
  country : Str
  city : Str
  latitude : Str
  longitude : Str
deriving DecidableEq, Repr

/-- Modelled from the spec: the JSON of a record as §8 writes it, the fields in the order
country, city, latitude, longitude (strings are written as they are, between quotes). -/
def encodeCity (c : CityRecord) : Str :=
  "\x7b\"country\":\"".toList ++ c.country ++ "\",\"city\":\"".toList ++ c.city ++
    "\",\"latitude\":".toList ++ c.latitude ++ ",\"longitude\":".toList ++ c.longitude ++
    "\x7d".toList

/-- Modelled from the spec: the test database of §8, which knows the one address
`203.0.113.5`. -/
def testDB : List (Str × CityRecord) :=
  [("203.0.113.5".toList,
    { country := "Testland".toList, city := "Testville".toList, latitude := "1.0".toList,
      longitude := "2.0".toList })]

/-- Modelled from the spec: a library over association lists, for the scenario of §8.  The
client address is the remote address up to its port. -/
def testLib : GeoLib (List (Str × CityRecord)) CityRecord :=
  { clientAddress := fun r =>
      if r.RemoteAddr.contains ':' then some (r.RemoteAddr.takeWhile (fun c => c != ':')) else none
    lookup := fun db ip =>
      match db.lookup ip with
      | some record => .found record
      | none => .notFound
    encode := encodeCity
    badAddressBody := "bad request".toList
    noRecordBody := "\x7b\x7d".toList
    errorBody := "internal error".toList }

/-! ## Runs that the theorems below are tried on -/

/-- A GET request for `/` with a host, a query string and a header, from `203.0.113.5`. -/
def getRoot : Request :=
  { Method := "GET".toList, Host := "geo.example.com:8080".toList, RequestURI := "/?pretty=1".toList,
    URL := { Host := [], EscapedPath := "/".toList, RawQuery := "pretty=1".toList },
    RemoteAddr := "203.0.113.5:51234".toList,
    Header := [("Accept".toList, "application/json".toList)] }

/-- The request `CONNECT geo.example.com:443`: the target is an authority, the path is
empty. -/
def connectRequest : Request :=
  { Method := "CONNECT".toList, Host := "geo.example.com:443".toList,
    RequestURI := "geo.example.com:443".toList,
    URL := { Host := "geo.example.com:443".toList, EscapedPath := [], RawQuery := [] },
    RemoteAddr := "203.0.113.5:51234".toList, Header := [] }

/-- A `net.SplitHostPort` for hosts of the form `name:port`. -/
def splitAtColon (h : Str) : Option Str :=
  some (h.takeWhile (fun c => c != ':'))

/-- A world in which everything goes well: no flags, the database opens (its handle is
what `open` gives), and `Shutdown` and `Close` return nil. -/
def quietEnv {DB : Type} (handle : DB) : Env DB :=
  { addrFlag := none, dbFlag := none, flagResult := .parsed, openDB := fun _ => .ok handle,
    listenResult := some .ErrServerClosed, shutdownResult := none, closeResult := none }

/-- A world in which the listener cannot bind its address. -/
def bindFailEnv : Env Nat :=
  { addrFlag := none, dbFlag := none, flagResult := .parsed, openDB := fun _ => .ok 7,
    listenResult := some (.other "listen tcp :8080: bind: address already in use".toList),
    shutdownResult := none, closeResult := none }

/-- A world in which the database file is missing. -/
def noFileEnv : Env Nat :=
  { addrFlag := none, dbFlag := some "missing.mmdb".toList, flagResult := .parsed,
    openDB := fun _ => .error (.other "open missing.mmdb: no such file or directory".toList),
    listenResult := none, shutdownResult := none, closeResult := none }

/-- A world in which `Shutdown` runs into its deadline and `Close` fails. -/
def slowEnv : Env Nat :=
  { addrFlag := some "127.0.0.1:9000".toList, dbFlag := some "city.mmdb".toList,
    flagResult := .parsed, openDB := fun _ => .ok 7, listenResult := some .ErrServerClosed,
    shutdownResult := some (.other "context deadline exceeded".toList),
    closeResult := some (.other "close failed".toList) }

/-- Lines 24 to 59: `main` runs up to `<-quit`. -/
def startSchedule : List Label := [.main, .main, .main, .main, .main, .main]

/-- A run in which the signal arrives while the server is listening and `main` shuts down
without an error: start, the goroutine calls `ListenAndServe`, the signal arrives after
1000 ns, lines 60 to 62, 5 ns pass, lines 63 to 71. -/
def cleanSchedule : List Label :=
  startSchedule ++ [.server, .server, .tick 1000, .signal, .main, .main, .tick 5] ++
    List.replicate 7 Label.main

/-- The run of `cleanSchedule` with the two statements more that log the errors of `Shutdown`
and `Close`. -/
def slowSchedule : List Label :=
  cleanSchedule ++ [Label.main, Label.main]

/-- A run in which the listener fails at once: `main` runs lines 24 to 50, then the goroutine
runs lines 51 to 54. -/
def bindFailSchedule : List Label :=
  List.replicate 5 Label.main ++ List.replicate 5 Label.server

/-- A run in which `ListenAndServe` has returned and the signal arrives before the goroutine
goes on: lines 24 to 59, lines 51 and 52 of the goroutine, the signal, lines 60 to 71. -/
def raceSchedule : List Label :=
  startSchedule ++ [.server, .server, .server, .signal] ++ List.replicate 9 Label.main

/-- A world in which the listener fails while the server is running, `Shutdown` runs into
its deadline and `Close` fails. -/
def brokenEnv : Env Nat :=
  { addrFlag := none, dbFlag := none, flagResult := .parsed, openDB := fun _ => .ok 7,
    listenResult := some (.other "accept tcp [::]:8080: accept4: bad file descriptor".toList),
    shutdownResult := some (.other "context deadline exceeded".toList),
    closeResult := some (.other "close failed".toList) }

/-- A run in which `ListenAndServe` has returned an error and the signal arrives before the
goroutine goes on; `main` runs lines 60 to 66, and then the goroutine runs lines 53 and 54. -/
def lateFailSchedule : List Label :=
  startSchedule ++ [.server, .server, .server, .signal] ++ List.replicate 5 Label.main ++
    [.server, .server]

/-- A command line with a flag that `main` has not defined. -/
def badFlagEnv : Env Nat :=
  { addrFlag := none, dbFlag := none, flagResult := .invalid, openDB := fun _ => .ok 7,
    listenResult := some .ErrServerClosed, shutdownResult := none, closeResult := none }

/-- A `close` action. -/
def Action.isClose : Action → Bool
  | .close _ => true
  | _ => false
theorem parse_root : parsePattern rootPattern = .ok rootPat := by rfl
theorem parse_rest : parsePattern restPattern = .ok restPat := by rfl
theorem buildMux_eq (db : DB) : buildMux db = .ok (mainMux db) := by rfl

theorem anyNode_matchPath (h : H) (p : Str) :
    (anyNode h).matchPath p = if p = [] then none else some (restPat, h) := by
  simp [anyNode, routingNode.matchPath, childMap.matchChild]

theorem getNode_matchPath (h : H) (p : Str) :
    (getNode h).matchPath p = if rootPath p then some (rootPat, h) else none := by
  simp only [getNode, routingNode.matchPath, childMap.matchChild, rootPath]
  by_cases h1 : p = []
  · simp [h1]
  · by_cases h2 : (firstSegment p).1 = ['/']
    · by_cases h3 : (firstSegment p).2 = [] <;> simp [h1, h2, h3]
    · have h2' : ¬ (['/'] = (firstSegment p).1) := fun h => h2 h.symm
      simp [h1, h2, h2']

theorem rootPath_ne_nil {p : Str} (h : rootPath p) : p ≠ [] := h.1

theorem GET_eq : "GET".toList = ['G', 'E', 'T'] := rfl
theorem HEAD_eq : "HEAD".toList = ['H', 'E', 'A', 'D'] := rfl
theorem hostNode_match (h1 h2 : H) (m p : Str) :
    matchMethodAndPath (some (hostNode h1 h2)) m p =
      if (m = "GET".toList ∨ m = "HEAD".toList) ∧ rootPath p then some (rootPat, h1)
      else if p = [] then none else some (restPat, h2) := by
  simp only [matchMethodAndPath, hostNode, routingNode.children, childMap.matchChild,
    getNode_matchPath, anyNode_matchPath, GET_eq, HEAD_eq]
  by_cases hp : p = []
  · have hr : ¬ rootPath p := fun h => h.1 hp
    subst hp
    simp only [hr]
    by_cases h1 : ['G', 'E', 'T'] = m
    · subst h1; simp
    · by_cases h3 : [] = m
      · subst h3; simp
      · by_cases h2 : m = ['H', 'E', 'A', 'D']
        · subst h2; simp
        · simp [h1, h2, h3]
  · by_cases h1 : ['G', 'E', 'T'] = m
    · subst h1
      by_cases hr : rootPath p <;> simp [hr, hp]
    · have h1' : ¬ (m = ['G', 'E', 'T']) := fun h => h1 h.symm
      by_cases h3 : [] = m
      · subst h3; simp [hp]
      · by_cases h2 : m = ['H', 'E', 'A', 'D']
        · subst h2
          by_cases hr : rootPath p <;> simp [hr, hp]
        · simp [h1, h1', h2, h3, hp]

theorem treeMatch_main (db : DB) (h m p : Str) :
    (mainMux db).tree.treeMatch h m p =
      matchMethodAndPath (some (hostNode (.ipInfo db) .notFound)) m p := by
  simp only [mainMux, routingNode.treeMatch, routingNode.findChild, routingNode.children, childMap.find]
  by_cases hh : h = []
  · subst hh; simp
  · have hh' : ¬ (([] : Str) = h) := fun e => hh e.symm
    simp [hh, hh', matchMethodAndPath]

/-! ### Facts about the string functions -/

theorem backtrack_last (d : Nat) (hd : 1 ≤ d) : ∀ out : List Char, d < out.length →
    (backtrack d out).getLast? = out.getLast? := by
  intro out
  induction out with
  | nil => intro h; simp at h
  | cons b o ih =>
    intro h
    have ho : o ≠ [] := by
      intro e; subst e; simp at h; omega
    have hl : (b :: o).getLast? = o.getLast? := by
      cases o with
      | nil => exact absurd rfl ho
      | cons x xs => simp [List.getLast?_cons_cons]
    unfold backtrack
    split
    · rename_i hc
      simp only [Bool.and_eq_true, decide_eq_true_eq] at hc
      rw [ih hc.1, hl]
    · rw [hl]

theorem getLast_cons_of_some {c x : Char} {out : List Char} (h : out.getLast? = some x) :
    (c :: out).getLast? = some x := by
  cases out with
  | nil => simp at h
  | cons y ys => simpa [List.getLast?_cons_cons] using h

theorem elemStart_last {out : List Char} (h : out.getLast? = some '/') :
    (elemStart true out).getLast? = some '/' := by
  unfold elemStart
  split
  · exact getLast_cons_of_some h
  · exact h

theorem dotdotElem_rooted {out : List Char} (h : out.getLast? = some '/') :
    (dotdotElem true 1 out).2 = 1 ∧ (dotdotElem true 1 out).1.getLast? = some '/' := by
  unfold dotdotElem
  split
  · rename_i hc
    exact ⟨rfl, by rw [backtrack_last 1 (le_refl 1) out hc]; exact h⟩
  · simp [h]

theorem cleanLoop_rooted : ∀ (n : Nat) (cs : Str), cs.length ≤ n → ∀ (b : Bool) (out : List Char),
    out.getLast? = some '/' → (cleanLoop true b 1 out cs).getLast? = some '/' := by
  intro n
  induction n with
  | zero =>
    intro cs hn b out h
    have : cs = [] := List.length_eq_zero.mp (Nat.le_zero.mp hn)
    subst this
    cases b <;> simpa [cleanLoop] using h
  | succ n ih =>
    intro cs hn b out h
    cases cs with
    | nil => cases b <;> simpa [cleanLoop] using h
    | cons c cs =>
      have hcs : cs.length ≤ n := by simpa using hn
      cases b with
      | true =>
        simp only [cleanLoop]
        split
        · exact ih cs hcs _ _ h
        · exact ih cs hcs _ _ (getLast_cons_of_some h)
      | false =>
        cases cs with
        | nil =>
          simp only [cleanLoop]
          split
          · exact h
          · split
            · exact h
            · exact getLast_cons_of_some (elemStart_last h)
        | cons d cs2 =>
          simp only [cleanLoop]
          split
          · exact ih (d :: cs2) hcs _ _ h
          · split
            · exact ih (d :: cs2) hcs _ _ h
            · split
              · have hd := dotdotElem_rooted h
                rw [hd.1]
                exact ih cs2 (by simp at hcs; omega) _ _ hd.2
              · have hcs2 : cs2.length ≤ n := by simp at hcs; omega
                split
                · exact ih cs2 hcs2 _ _ (getLast_cons_of_some (elemStart_last h))
                · exact ih cs2 hcs2 _ _
                    (getLast_cons_of_some (getLast_cons_of_some (elemStart_last h)))

theorem Clean_rooted (cs : Str) : (Clean ('/' :: cs)).head? = some '/' := by
  have h := cleanLoop_rooted cs.length cs (le_refl _) false ['/'] rfl
  simp only [Clean, if_true]
  split
  · rename_i h0
    have : cleanLoop true false 1 ['/'] cs = [] := List.length_eq_zero.mp h0
    rw [this] at h; simp at h
  · rw [List.head?_reverse]; exact h

theorem head_append_of_some {x : Char} {l : List Char} (m : List Char) (h : l.head? = some x) :
    (l ++ m).head? = some x := by
  cases l with
  | nil => simp at h
  | cons y ys => simpa using h

theorem cleanPath_head (p : Str) : (cleanPath p).head? = some '/' := by
  cases p with
  | nil => rfl
  | cons c cs =>
    simp only [cleanPath]
    by_cases hc : c = '/'
    · subst hc
      simp only [ne_eq, not_true_eq_false, if_false]
      split
      · split
        · rfl
        · exact head_append_of_some _ (Clean_rooted cs)
      · exact Clean_rooted cs
    · simp only [ne_eq, hc, not_false_eq_true, if_true]
      split
      · split
        · rfl
        · exact head_append_of_some _ (Clean_rooted (c :: cs))
      · exact Clean_rooted (c :: cs)

theorem clean_head {p : Str} (h : cleanPath p = p) : p.head? = some '/' := by
  rw [← h]; exact cleanPath_head p

theorem rootPath_slash : rootPath ['/'] := by decide
theorem rootPath_2F : rootPath ['/', '%', '2', 'F'] := by decide
theorem rootPath_2f : rootPath ['/', '%', '2', 'f'] := by decide

theorem not_rootPath_append {p : Str} (hp : p ≠ []) : ¬ rootPath (p ++ ['/']) := by
  intro h
  obtain ⟨_, _, h2⟩ := h
  cases p with
  | nil => exact hp rfl
  | cons c t =>
    have hne : (c :: t ++ ['/']) ≠ ['/'] := by
      cases t <;> simp
    simp only [firstSegment, hne, if_false] at h2
    have hall := List.dropWhile_eq_nil_iff.mp h2
    have := hall '/' (by simp)
    simp at this

/-! ### The dispatch of the mux of `main` -/

theorem exactMatch_root (h : H) (p : Str) : exactMatch (some (rootPat, h)) p = true := by
  simp [exactMatch, rootPat, pattern.lastMulti]

theorem exactMatch_rest (h : H) (p : Str) :
    exactMatch (some (restPat, h)) p =
      if p.length > 0 ∧ p.getLast? ≠ some '/' then false else decide (1 = p.count '/') := by
  simp [exactMatch, restPat, pattern.lastMulti]

theorem count_slash_pos {p : Str} (hp : p.head? = some '/') : 1 ≤ p.count '/' := by
  cases p with
  | nil => simp at hp
  | cons c t =>
    simp only [List.head?_cons, Option.some.injEq] at hp
    subst hp
    simp

theorem matchOrRedirect_main (db : DB) (h m p : Str) (b : Bool) (hp : p.head? = some '/') :
    (mainMux db).matchOrRedirect h m p b =
      (matchMethodAndPath (some (hostNode (.ipInfo db) .notFound)) m p, false) := by
  have hne : p ≠ [] := by
    intro e; rw [e] at hp; simp at hp
  have hne2 : p ++ ['/'] ≠ [] := by simp
  have hcount := count_slash_pos hp
  simp only [ServeMux.matchOrRedirect, treeMatch_main, hostNode_match]
  by_cases hr : (m = "GET".toList ∨ m = "HEAD".toList) ∧ rootPath p
  · simp only [hr, and_self, if_true, exactMatch_root]
    simp
  · have hr2 : ¬ ((m = "GET".toList ∨ m = "HEAD".toList) ∧ rootPath (p ++ ['/'])) :=
      fun hh => not_rootPath_append hne hh.2
    have hc2 : ¬ (1 = List.count '/' (p ++ ['/'])) := by
      simp only [List.count_append, List.count_singleton_self]
      omega
    have hl : (p ++ ['/']).getLast? = some '/' := by simp
    simp only [hr, hr2, hne, hne2, if_false, exactMatch_rest, hl, ne_eq, not_true_eq_false,
      and_false, hc2, decide_False]
    simp

theorem cleanPath_star : cleanPath ['*'] ≠ ['*'] := by decide

/-- What the mux of `main` does with a request that is not a CONNECT and whose path is in
canonical form. -/
theorem serve_canonical (sp : Str → Option Str) (db : DB) (r : Request) (hinc : r.incoming)
    (hm : r.Method ≠ "CONNECT".toList) (hc : cleanPath r.URL.EscapedPath = r.URL.EscapedPath) :
    (mainMux db).ServeHTTP sp r =
      if (r.Method = "GET".toList ∨ r.Method = "HEAD".toList) ∧ rootPath r.URL.EscapedPath
      then .registered (.ipInfo db) else .registered .notFound := by
  have hhead := clean_head hc
  have hne : r.URL.EscapedPath ≠ [] := by
    intro e; rw [e] at hhead; simp at hhead
  have huri : r.RequestURI ≠ ['*'] := by
    intro e
    have := hinc e
    rw [this] at hc
    exact cleanPath_star hc
  by_cases hr : (r.Method = "GET".toList ∨ r.Method = "HEAD".toList) ∧ rootPath r.URL.EscapedPath
  · simp only [ServeMux.ServeHTTP, huri, if_false, ServeMux.findHandler, hm, hc,
      matchOrRedirect_main db _ _ _ _ hhead, hostNode_match, hne, ne_eq, not_true_eq_false, hr,
      and_self, if_true, ServeMux.leafOr]
    simp
  · simp only [ServeMux.ServeHTTP, huri, if_false, ServeMux.findHandler, hm, hc,
      matchOrRedirect_main db _ _ _ _ hhead, hostNode_match, hne, ne_eq, not_true_eq_false, hr,
      ServeMux.leafOr]
    simp

theorem rootPat_tree : (routingNode.empty : routingNode Unit).addPattern rootPat () =
    some (.mk none (.cons [] (.mk none (.cons "GET".toList (getNode ()) .nil) none) .nil) none) := by
  rfl

theorem restPat_tree : (routingNode.empty : routingNode Unit).addPattern restPat () =
    some (.mk none (.cons [] (.mk none (.cons [] (anyNode ()) .nil) none) .nil) none) := by
  rfl

theorem treeMatch_hostless (n : routingNode H) (h m p : Str) :
    (routingNode.mk none (.cons [] n .nil) none).treeMatch h m p =
      matchMethodAndPath (some n) m p := by
  simp only [routingNode.treeMatch, routingNode.findChild, routingNode.children, childMap.find]
  by_cases hh : h = []
  · subst hh; simp
  · have hh1 : ¬ (([] : Str) = h) := fun e => hh e.symm
    simp [hh, hh1, matchMethodAndPath]

theorem getOnly_match (x : H) (m p : Str) :
    matchMethodAndPath (some (.mk none (.cons "GET".toList (getNode x) .nil) none)) m p =
      if (m = "GET".toList ∨ m = "HEAD".toList) ∧ rootPath p then some (rootPat, x) else none := by
  simp only [matchMethodAndPath, routingNode.children, childMap.matchChild, getNode_matchPath,
    GET_eq, HEAD_eq]
  by_cases h1 : ['G', 'E', 'T'] = m
  · subst h1
    by_cases hr : rootPath p <;> simp [hr]
  · have h1a : ¬ (m = ['G', 'E', 'T']) := fun e => h1 e.symm
    by_cases h2 : m = ['H', 'E', 'A', 'D']
    · subst h2
      by_cases hr : rootPath p <;> simp [hr]
    · simp [h1, h1a, h2]

theorem anyOnly_match (x : H) (m p : Str) :
    matchMethodAndPath (some (.mk none (.cons [] (anyNode x) .nil) none)) m p =
      if p = [] then none else some (restPat, x) := by
  simp only [matchMethodAndPath, routingNode.children, childMap.matchChild, anyNode_matchPath,
    GET_eq, HEAD_eq]
  by_cases hp : p = []
  · subst hp
    by_cases h1 : [] = m
    · subst h1; simp
    · by_cases h2 : m = ['H', 'E', 'A', 'D']
      · subst h2; simp
      · simp [h1, h2]
  · by_cases h1 : [] = m
    · subst h1; simp [hp]
    · by_cases h2 : m = ['H', 'E', 'A', 'D']
      · subst h2; simp [hp]
      · simp [h1, h2, hp]

theorem rootPat_matches (h m p : Str) :
    rootPat.matchesRequest h m p = decide ((m = "GET".toList ∨ m = "HEAD".toList) ∧ rootPath p) := by
  simp only [pattern.matchesRequest, rootPat_tree, treeMatch_hostless, getOnly_match]
  split <;> simp_all

theorem restPat_matches (h m p : Str) : restPat.matchesRequest h m p = decide (p ≠ []) := by
  simp only [pattern.matchesRequest, restPat_tree, treeMatch_hostless, anyOnly_match]
  split <;> simp_all

theorem treeMatch_nonempty (db : DB) (h m p : Str) (hp : p ≠ []) :
    ((mainMux db).tree.treeMatch h m p).isSome = true := by
  rw [treeMatch_main, hostNode_match]
  split
  · rfl
  · simp [hp]

theorem cleanPath_ne_nil (p : Str) : cleanPath p ≠ [] := by
  intro e
  have := cleanPath_head p
  rw [e] at this
  simp at this

/-! ### Facts about the process -/

theorem actionsOf_append (t : Tid) (tr : List Event) (e : Event) :
    actionsOf t (tr ++ [e]) = actionsOf t tr ++ (if e.tid = t then [e.act] else []) := by
  unfold actionsOf
  by_cases h : e.tid = t <;> simp [List.filter_append, h]

theorem mem_of_mem_actionsOf {t : Tid} {a : Action} {tr : List Event} (h : a ∈ actionsOf t tr) :
    (⟨t, a⟩ : Event) ∈ tr := by
  unfold actionsOf at h
  obtain ⟨e, he, rfl⟩ := List.mem_map.mp h
  have h1 := List.mem_filter.mp he
  have h2 : e.tid = t := by simpa using h1.2
  subst h2
  exact h1.1

theorem mem_actionsOf {t : Tid} {a : Action} {tr : List Event} (h : (⟨t, a⟩ : Event) ∈ tr) :
    a ∈ actionsOf t tr := by
  unfold actionsOf
  exact List.mem_map.mpr ⟨⟨t, a⟩, List.mem_filter.mpr ⟨h, by simp⟩, rfl⟩

theorem closeAfterShutdown_append {env : Env DB} {tr : List Event} {e : Event}
    (h : closeAfterShutdown env tr)
    (he : ∀ t r, e = ⟨t, .close r⟩ → (⟨.main, .shutdownReturn env.shutdownResult⟩ : Event) ∈ tr) :
    closeAfterShutdown env (tr ++ [e]) := by
  intro pre post t r heq
  rcases List.eq_nil_or_concat post with hp | ⟨post1, x, hp⟩
  · subst hp
    have h1 : tr ++ [e] = pre ++ [⟨t, .close r⟩] := heq
    have h2 := List.append_inj' h1 rfl
    have h3 : e = ⟨t, .close r⟩ := by simpa using h2.2
    rw [← h2.1]
    exact he t r h3
  · subst hp
    have h1 : tr ++ [e] = (pre ++ ⟨t, .close r⟩ :: post1) ++ [x] := by
      rw [heq]; simp
    have h2 := List.append_inj' h1 rfl
    exact h pre post1 t r h2.1

theorem world_acts_append {tr : List Event} {e : Event}
    (h : ∀ x ∈ tr, x.tid = .world → x.act = .signal ∨ ∃ r, x.act = .serve r)
    (he : e.tid = .world → e.act = .signal ∨ ∃ r, e.act = .serve r) :
    ∀ x ∈ tr ++ [e], x.tid = .world → x.act = .signal ∨ ∃ r, x.act = .serve r := by
  intro x hx hw
  rcases List.mem_append.mp hx with h1 | h1
  · exact h x h1 hw
  · simp only [List.mem_singleton] at h1
    subst h1
    exact he hw

theorem inv_init (env : Env DB) : Inv env (State.init : State DB) := by
  constructor <;> simp [State.init, actionsOf, mainActions, serverActions, dbAt, muxSet, srvSet,
    MainPC.listening, MainPC.spawned, MainPC.opened, MainPC.received, MainPC.ctxMade, exitOf,
    closeAfterShutdown, ServerPC.errPath]



theorem world_append {tr : List Event} {t : Tid} {a : Action} (ht : t ≠ .world)
    (h : ∃ e ∈ tr ++ [⟨t, a⟩], e.tid = .world) : ∃ e ∈ tr, e.tid = .world := by
  obtain ⟨e, he, hw⟩ := h
  rcases List.mem_append.mp he with h1 | h1
  · exact ⟨e, h1, hw⟩
  · simp only [List.mem_singleton] at h1
    subst h1
    exact absurd hw ht

set_option maxHeartbeats 4000000 in
theorem inv_stepMain {env : Env DB} {s s1 : State DB} (h : Inv env s) (hex : s.exit = none)
    (hk : s.killed = false) (hs : main env s = some s1) : Inv env s1 := by
  obtain ⟨h1, h2, h3, h4, h5, h6, h7, h8, h9, h10, h11, h14, h15, h13, h12, h16, h17, h18, h19, h20, h21⟩ := h
  unfold main at hs
  cases hm : s.main <;> rw [hm] at hs <;> simp only [] at hs
  all_goals (try split at hs)
  all_goals (try simp only [buildMux_eq] at hs)
  all_goals (try (simp only [reduceCtorEq] at hs))
  all_goals (simp only [Option.some.injEq] at hs; subst hs)
  all_goals
    have hidle : s.main.spawned = false → s.server = .idle := h10.mpr
    have hfail : s.main.opened = true →
        (s.main.failPath ↔ ∃ e, env.openDB env.dbFile = .error e) := h9
    rw [hm] at h1 h3 h4 h5 h6 h7 hidle hfail h11 h16 h18 h19
    constructor
  all_goals (try (apply world_acts_append h13; intro hw; cases hw))
  all_goals (try (exact h14))
  all_goals (try (
    intro hq
    apply List.mem_append_left
    apply h20
    revert hq
    simp [State.mainTo, hm, MainPC.received, MainPC.listening, MainPC.spawned, *]))
  all_goals (try (
    have hf := h16 (by decide)
    simp [MainPC.flagFail] at hf
    simp [State.mainTo, MainPC.flagFail, hf]; done))
  all_goals (try (
    intro hse
    have hse1 : s.server = .exited := hse
    rw [hse1, hex] at h7
    simp [exitOf] at h7))
  case spawn.server_err =>
    intro hfalse
    simp [ServerPC.errPath] at hfalse
  case' openDB.h_1.db_eq | openDB.h_2.db_eq =>
    rename_i heq
    simp [State.mainTo, dbAt, heq, Except.toOption]
  all_goals (try (simp [State.mainTo, actionsOf_append, mainActions, h1, h2, h3, h4, h5, h6, h7,
    dbAt, muxSet, srvSet, MainPC.listening, MainPC.spawned, MainPC.failPath, MainPC.opened,
    MainPC.received, MainPC.ctxMade, MainPC.flagFail, exitOf, startup, drain, wrapUp,
    shutdownActions, openErrLog, forcedLog, closeErrLog, flagExit, *]; done))
  all_goals (try (
    have hf := hfail rfl
    simp [MainPC.failPath] at hf
    simp [State.mainTo, MainPC.failPath, hf]; done))
  all_goals (try (
    apply closeAfterShutdown_append h12
    intro t r he
    first
    | (apply mem_of_mem_actionsOf; rw [h1]; simp [mainActions, drain]; done)
    | (simp [State.mainTo, logOpenErr, logForced, logCloseErr] at he)))
  all_goals (try (
    intro hw
    have hw1 := h11 (world_append (by decide) hw)
    first
    | (simp [MainPC.spawned] at hw1)))
  all_goals (try (
    have hi := hidle rfl
    simp [State.mainTo, actionsOf_append, h2, hi, serverActions, exitOf, h7] ; done))
  case routes.h_2.mux_eq =>
    rename_i db heq
    have h3a : (env.openDB env.dbFile).toOption = some db := by
      rw [← heq, h3]; simp [dbAt, MainPC.opened]
    simp [State.mainTo, muxSet, dbAt, h3a, MainPC.opened]

theorem srvSet_of_spawned {pc : MainPC} (h : pc.spawned = true) : srvSet pc = true := by
  cases pc <;> simp_all [MainPC.spawned, srvSet, muxSet]

theorem exitOf_exited {env : Env DB} {m : MainPC} {g : ServerPC} (h : exitOf env m g = none)
    (hm : m.spawned = true) : exitOf env m .exited = some 1 := by
  cases m <;> simp_all [exitOf, MainPC.spawned]

theorem exitOf_server {env : Env DB} {m : MainPC} {g g1 : ServerPC} (h : exitOf env m g = none)
    (hg : g1 ≠ .exited) : exitOf env m g1 = none := by
  cases m <;> simp_all [exitOf]

theorem inv_stepServer {env : Env DB} {s s1 : State DB} (h : Inv env s) (hex : s.exit = none)
    (hk : s.killed = false) (hs : stepServer env s = some s1) : Inv env s1 := by
  obtain ⟨h1, h2, h3, h4, h5, h6, h7, h8, h9, h10, h11, h14, h15, h13, h12, h16, h17, h18, h19, h20, h21⟩ := h
  rw [hex] at h7
  unfold stepServer at hs
  cases hg : s.server <;> rw [hg] at hs <;> simp only [] at hs
  all_goals (try split at hs)
  all_goals (try (simp only [reduceCtorEq] at hs))
  all_goals (simp only [Option.some.injEq] at hs; subst hs)
  all_goals
    have hsp : s.main.spawned = true := by
      cases hsp : s.main.spawned
      · have := h10.mpr hsp
        rw [hg] at this
        exact absurd this (by decide)
      · rfl
    have hsrv : s.srv = some (newServer env.addr) := by
      rw [h5, srvSet_of_spawned hsp]; rfl
    rw [hg] at h2 h7 h14
    constructor
  all_goals (try (apply world_acts_append h13; intro hw; cases hw))
  all_goals (try (simp only [State.serverTo]; exact h14))
  all_goals (try (simp only [State.serverTo]; exact h16))
  all_goals (try (simp only [State.serverTo]; exact h18))
  all_goals (try (simp only [State.serverTo]; exact h19))
  all_goals (try (simp only [State.serverTo]; exact h21))
  all_goals (try (simp only [State.serverTo]; exact fun hq => List.mem_append_left _ (h20 hq)))
  all_goals (try (simp only [State.serverTo]; intro hq; rw [hk] at hq; cases hq))
  case exit.ends_once =>
    intro _
    show s.main ≠ .returned ∧ s.main ≠ .exited
    cases hm : s.main <;> rw [hm] at h7 <;> simp [exitOf] at h7 ⊢
  all_goals (try (simp [State.serverTo, actionsOf_append, serverActions, h1, h2, h3, h4, h5, h6,
    serverErrLog, hsp, ServerPC.errPath, *]; done))
  all_goals (try (exact h9))
  all_goals (try (
    apply closeAfterShutdown_append h12
    intro t r he
    simp [State.serverTo, logServerErr] at he))
  all_goals (try (
    simp only [State.serverTo, hex]; exact (exitOf_server h7.symm (by decide)).symm))
  case exit.exit_eq =>
    show some 1 = exitOf env s.main .exited
    exact (exitOf_exited h7.symm hsp).symm
  all_goals (try (
    rename_i srv heq
    rw [hsrv] at heq
    simp only [Option.some.injEq] at heq
    subst heq
    simp [State.serverTo, actionsOf_append, serverActions, h2, newServer]))

theorem inv_step {env : Env DB} {l : Label} {s s1 : State DB} (h : Inv env s)
    (hs : step env l s = some s1) : Inv env s1 := by
  unfold step at hs
  cases hex : s.exit with
  | some c => rw [hex] at hs; simp at hs
  | none =>
    rw [hex] at hs
    simp only [] at hs
    cases hk : s.killed with
    | true => rw [hk] at hs; simp at hs
    | false =>
      rw [hk] at hs
      simp only [Bool.false_eq_true, if_false] at hs
      cases l with
      | main => exact inv_stepMain h hex hk hs
      | server => exact inv_stepServer h hex hk hs
      | signal =>
        simp only [] at hs
        split at hs
        · rename_i hn
          simp only [Option.some.injEq] at hs
          subst hs
          obtain ⟨h1, h2, h3, h4, h5, h6, h7, h8, h9, h10, h11, h14, h15, h13, h12, h16, h17, h18,
            h19, h20, h21⟩ := h
          have hl : s.main.listening = true := by rw [← h6]; exact hn
          have hsp : s.main.spawned = true := by
            cases hm : s.main <;> simp_all [MainPC.listening, MainPC.spawned]
          constructor
          all_goals (try (apply world_acts_append h13; intro _; simp))
          all_goals (try (simp [actionsOf_append, h1, h2, h3, h4, h5, h6, h7, hsp, *]; done))
          all_goals (try (exact h9))
          all_goals (try (exact h14))
          all_goals (try (exact h15))
          all_goals (try (exact h16))
          all_goals (try (exact h18))
          all_goals (try (exact h19))
          all_goals (try (exact h21))
          case exit_eq => rw [hex] at h7; exact h7
          case close_order =>
            apply closeAfterShutdown_append h12
            intro t r he
            simp at he
        · rename_i hn
          simp only [Option.some.injEq] at hs
          subst hs
          obtain ⟨h1, h2, h3, h4, h5, h6, h7, h8, h9, h10, h11, h14, h15, h13, h12, h16, h17, h18,
            h19, h20, h21⟩ := h
          rw [hex] at h7
          exact ⟨h1, h2, h3, h4, h5, h6, h7, h8, h9, h10, h11, h14, h15, h13, h12, h16,
            fun _ => ⟨rfl, by simpa using hn⟩, h18, h19, h20, h21⟩
      | request r =>
        simp only [] at hs
        split at hs
        · rename_i hn
          simp only [Option.some.injEq] at hs
          subst hs
          obtain ⟨h1, h2, h3, h4, h5, h6, h7, h8, h9, h10, h11, h14, h15, h13, h12, h16, h17, h18,
            h19, h20, h21⟩ := h
          have hsp : s.main.spawned = true := by
            cases hsp : s.main.spawned
            · have := h10.mpr hsp
              rw [hn] at this
              exact absurd this (by decide)
            · rfl
          constructor
          all_goals (try (apply world_acts_append h13; intro _; simp))
          all_goals (try (simp [actionsOf_append, h1, h2, h3, h4, h5, h6, h7, hsp, *]; done))
          all_goals (try (exact h9))
          all_goals (try (exact h14))
          all_goals (try (exact h16))
          all_goals (try (exact h18))
          all_goals (try (exact h19))
          all_goals (try (exact h21))
          case exit_eq => rw [hex] at h7; exact h7
          case signal_seen => exact fun hq => List.mem_append_left _ (h20 hq)
          case close_order =>
            apply closeAfterShutdown_append h12
            intro t r he
            simp at he
        · simp at hs
      | tick d =>
        simp only [Option.some.injEq] at hs
        subst hs
        obtain ⟨h1, h2, h3, h4, h5, h6, h7, h8, h9, h10, h11, h14, h15, h13, h12, h16, h17, h18,
          h19, h20, h21⟩ := h
        rw [hex] at h7
        exact ⟨h1, h2, h3, h4, h5, h6, h7, h8, h9, h10, h11, h14, h15, h13, h12, h16,
          (fun hq => by cases hq),
          fun hr => Nat.le_trans (h18 hr) (Nat.le_add_right _ _),
          fun hr => ⟨(h19 hr).1, Nat.le_trans (h19 hr).2 (Nat.le_add_right _ _)⟩, h20, h21⟩

theorem inv_run {env : Env DB} : ∀ (sched : List Label) (s s1 : State DB), Inv env s →
    run env sched s = some s1 → Inv env s1 := by
  intro sched
  induction sched with
  | nil =>
    intro s s1 h hr
    simp only [run, Option.some.injEq] at hr
    subst hr
    exact h
  | cons l ls ih =>
    intro s s1 h hr
    simp only [run] at hr
    split at hr
    · rename_i s2 hs
      exact ih s2 s1 (inv_step h hs) hr
    · simp at hr

/-- Every state that the process reaches satisfies the invariant. -/
theorem inv_exec {env : Env DB} {sched : List Label} {s : State DB}
    (h : exec env sched = some s) : Inv env s :=
  inv_run sched _ s (inv_init env) h

/-! ### What a reachable state tells about its trace -/

theorem mem_trace_main {env : Env DB} {s : State DB} (h : Inv env s) {a : Action}
    (hm : (⟨.main, a⟩ : Event) ∈ s.trace) : a ∈ mainActions env s.recvAt s.ctxAt s.main := by
  rw [← h.mainDone]; exact mem_actionsOf hm

theorem mem_trace_server {env : Env DB} {s : State DB} (h : Inv env s) {a : Action}
    (hm : (⟨.server, a⟩ : Event) ∈ s.trace) : a ∈ serverActions env s.server := by
  rw [← h.serverDone]; exact mem_actionsOf hm

theorem mem_trace_world {env : Env DB} {s : State DB} (h : Inv env s) {a : Action}
    (hm : (⟨.world, a⟩ : Event) ∈ s.trace) : a = .signal ∨ ∃ r, a = .serve r :=
  h.world_acts _ hm rfl

theorem mem_forcedLog {env : Env DB} {a : Action} :
    a ∈ forcedLog env ↔ ∃ e, env.shutdownResult = some e ∧ a = logForced e := by
  unfold forcedLog
  cases env.shutdownResult <;> simp

theorem mem_closeErrLog {env : Env DB} {a : Action} :
    a ∈ closeErrLog env ↔ ∃ e, env.closeResult = some e ∧ a = logCloseErr env e := by
  unfold closeErrLog
  cases env.closeResult <;> simp

theorem mem_openErrLog {env : Env DB} {a : Action} :
    a ∈ openErrLog env ↔ ∃ e, env.openDB env.dbFile = .error e ∧ a = logOpenErr env e := by
  unfold openErrLog
  cases env.openDB env.dbFile <;> simp

theorem mem_flagExit {env : Env DB} {a : Action} :
    a ∈ flagExit env ↔ ∃ c, env.flagResult.exitCode = some c ∧ a = .exit c := by
  unfold flagExit
  cases env.flagResult.exitCode <;> simp

theorem mem_serverErrLog {env : Env DB} {a : Action} :
    a ∈ serverErrLog env ↔ ∃ e, env.listenResult = some e ∧ a = logServerErr e := by
  unfold serverErrLog
  cases env.listenResult <;> simp

theorem shutdown_mem_main {env : Env DB} {t0 t1 : Nat} {pc : MainPC} {d : Nat}
    (h : Action.shutdown d ∈ mainActions env t0 t1 pc) :
    d = t1 + shutDownTimeout ∧ pc.ctxMade = true := by
  cases pc <;>
    simp [mainActions, startup, drain, wrapUp, shutdownActions, mem_forcedLog, mem_closeErrLog,
      mem_openErrLog, mem_flagExit, logForced, logCloseErr, logOpenErr, MainPC.ctxMade,
      MainPC.received, MainPC.listening, MainPC.spawned] at h ⊢ <;> exact h

theorem withTimeout_mem_main {env : Env DB} {t0 t1 : Nat} {pc : MainPC} {now d : Nat}
    (h : Action.withTimeout now d ∈ mainActions env t0 t1 pc) :
    (now = t1 ∧ d = t1 + shutDownTimeout) ∧ pc.ctxMade = true := by
  cases pc <;>
    simp [mainActions, startup, drain, wrapUp, shutdownActions, mem_forcedLog, mem_closeErrLog,
      mem_openErrLog, mem_flagExit, logForced, logCloseErr, logOpenErr, MainPC.ctxMade,
      MainPC.received, MainPC.listening, MainPC.spawned] at h ⊢ <;> exact h

theorem receive_mem_main {env : Env DB} {t0 t1 : Nat} {pc : MainPC} {now : Nat}
    (h : Action.receive now ∈ mainActions env t0 t1 pc) : now = t0 ∧ pc.received = true := by
  cases pc <;>
    simp [mainActions, startup, drain, wrapUp, shutdownActions, mem_forcedLog, mem_closeErrLog,
      mem_openErrLog, mem_flagExit, logForced, logCloseErr, logOpenErr, MainPC.ctxMade,
      MainPC.received, MainPC.listening, MainPC.spawned] at h ⊢ <;> exact h

theorem newServer_mem_main {env : Env DB} {t0 t1 : Nat} {pc : MainPC} {srv : Server}
    (h : Action.newServer srv ∈ mainActions env t0 t1 pc) : srv = newServer env.addr := by
  cases pc <;>
    simp [mainActions, startup, drain, wrapUp, shutdownActions, mem_forcedLog, mem_closeErrLog,
      mem_openErrLog, mem_flagExit, logForced, logCloseErr, logOpenErr] at h <;> exact h

theorem openDB_mem_main {env : Env DB} {t0 t1 : Nat} {pc : MainPC} {f : Str}
    (h : Action.openDB f ∈ mainActions env t0 t1 pc) : f = env.dbFile := by
  cases pc <;>
    simp [mainActions, startup, drain, wrapUp, shutdownActions, mem_forcedLog, mem_closeErrLog,
      mem_openErrLog, mem_flagExit, logForced, logCloseErr, logOpenErr] at h <;> exact h

theorem mainReturn_mem_main {env : Env DB} {t0 t1 : Nat} {pc : MainPC}
    (h : Action.mainReturn ∈ mainActions env t0 t1 pc) : pc = .returned := by
  cases pc <;>
    simp [mainActions, startup, drain, wrapUp, shutdownActions, mem_forcedLog, mem_closeErrLog,
      mem_openErrLog, mem_flagExit, logForced, logCloseErr, logOpenErr] at h ⊢

theorem no_main_server_acts {env : Env DB} {t0 t1 : Nat} {pc : MainPC} {a : Action}
    (h : a ∈ mainActions env t0 t1 pc) :
    (∀ x, a ≠ .listenAndServe x) ∧ (∀ x, a ≠ .listenReturn x) ∧ (∀ x, a ≠ .serve x) := by
  refine ⟨?_, ?_, ?_⟩ <;> intro x hx <;> subst hx <;> cases pc <;>
    simp [mainActions, startup, drain, wrapUp, shutdownActions, mem_forcedLog, mem_closeErrLog,
      mem_openErrLog, mem_flagExit, logForced, logCloseErr, logOpenErr] at h

theorem close_not_server {env : Env DB} {pc : ServerPC} {r : Option GoErr}
    (h : Action.close r ∈ serverActions env pc) : False := by
  cases pc <;> simp [serverActions, mem_serverErrLog, logServerErr] at h

theorem listen_mem_server {env : Env DB} {pc : ServerPC} {x : Str}
    (h : Action.listenAndServe x ∈ serverActions env pc) : x = env.addr := by
  cases pc <;> simp [serverActions, mem_serverErrLog, logServerErr] at h <;> exact h

theorem exit_mem_server {env : Env DB} {pc : ServerPC} {c : Nat}
    (h : Action.exit c ∈ serverActions env pc) : pc = .exited := by
  cases pc <;> simp [serverActions, mem_serverErrLog, logServerErr] at h ⊢

theorem no_server_main_acts {env : Env DB} {pc : ServerPC} {a : Action}
    (h : a ∈ serverActions env pc) :
    (∀ x, a ≠ .shutdown x) ∧ (∀ x y, a ≠ .withTimeout x y) ∧ (∀ x, a ≠ .newServer x) ∧
      (∀ x, a ≠ .openDB x) ∧ (∀ x, a ≠ .serve x) ∧ (∀ x, a ≠ .receive x) ∧
      (∀ x, a ≠ .flagParse x) ∧ a ≠ .mainReturn := by
  refine ⟨?_, ?_, ?_, ?_, ?_, ?_, ?_, ?_⟩ <;> intros <;> intro hx <;> subst hx <;> cases pc <;>
    simp [serverActions, mem_serverErrLog, logServerErr] at h

theorem trace_of_lone_main {tr : List Event} (hs : actionsOf .server tr = [])
    (hw : ¬ ∃ e ∈ tr, e.tid = .world) : tr = (actionsOf .main tr).map (Event.mk .main) := by
  induction tr with
  | nil => rfl
  | cons e tr ih =>
    have hw1 : ¬ ∃ x ∈ tr, x.tid = .world := fun ⟨x, hx, hxw⟩ => hw ⟨x, List.mem_cons_of_mem _ hx, hxw⟩
    have he : e.tid ≠ .world := fun h => hw ⟨e, List.mem_cons_self _ _, h⟩
    obtain ⟨t, a⟩ := e
    cases t with
    | main =>
      have hs1 : actionsOf .server tr = [] := by simpa [actionsOf] using hs
      have := ih hs1 hw1
      simp only [actionsOf, List.filter_cons, decide_True, if_true, List.map_cons] at this ⊢
      rw [← this]
    | server => simp [actionsOf] at hs
    | world => exact absurd rfl he

theorem trace_before_spawn {env : Env DB} {s : State DB} (h : Inv env s)
    (hsp : s.main.spawned = false) : s.trace = (mainActions env s.recvAt s.ctxAt s.main).map (Event.mk .main) := by
  have hidle := h.server_idle.mpr hsp
  have hs : actionsOf .server s.trace = [] := by
    rw [h.serverDone, hidle]; rfl
  have hw : ¬ ∃ e ∈ s.trace, e.tid = .world := by
    intro hw
    have := h.world_events hw
    rw [hsp] at this
    exact absurd this (by decide)
  rw [← h.mainDone]
  exact trace_of_lone_main hs hw

theorem exit_cases {env : Env DB} {s : State DB} (h : Inv env s) {c : Nat}
    (hc : s.exit = some c) :
    (s.main = .flagsExited ∧ env.flagResult.exitCode = some c) ∨
      (c = 1 ∧ s.main = .exited) ∨ (c = 0 ∧ s.main = .returned) ∨
      (c = 1 ∧ s.server = .exited ∧ s.main ≠ .exited ∧ s.main ≠ .returned ∧
        s.main.spawned = true) := by
  have hsp : s.server = .exited → s.main.spawned = true := by
    intro hg
    cases hsp : s.main.spawned
    · have := h.server_idle.mpr hsp
      rw [hg] at this
      cases this
    · rfl
  have h7 := h.exit_eq
  have h8 := h.not_panicked
  rw [hc] at h7
  unfold exitOf at h7
  cases hm : s.main <;> rw [hm] at h7 <;> simp only [] at h7
  all_goals first
    | (exact absurd hm h8)
    | (exact Or.inl ⟨rfl, h7.symm⟩)
    | (simp only [Option.some.injEq] at h7; simp [h7])
    | (split at h7
       · rename_i hg
         have hsp1 := hsp hg
         rw [hm] at hsp1
         simp only [Option.some.injEq] at h7
         simp [h7, hg, hsp1]
       · simp at h7)

theorem exitCode_cases {r : FlagResult} {c : Nat} (h : r.exitCode = some c) :
    (r = .help ∧ c = 0) ∨ (r = .invalid ∧ c = 2) := by
  cases r <;> simp [FlagResult.exitCode] at h <;> simp [h]

theorem parsed_of_opened {env : Env DB} {s : State DB} (h : Inv env s)
    (ho : s.main ≠ .flags) (hf : s.main.flagFail = false) : env.flagResult = .parsed := by
  by_contra hne
  have := (h.flag_iff ho).mpr hne
  rw [hf] at this
  cases this

theorem flagFail_cases {env : Env DB} {s : State DB} (h : Inv env s)
    (hne : env.flagResult ≠ .parsed) :
    s.main = .flags ∨ s.main = .exitFlags ∨ s.main = .flagsExited := by
  by_cases ho : s.main = .flags
  · exact Or.inl ho
  · have := (h.flag_iff ho).mpr hne
    cases hm : s.main <;> rw [hm] at this <;> simp [MainPC.flagFail] at this <;> simp

theorem failPath_of_error {env : Env DB} {s : State DB} (h : Inv env s) {e : GoErr}
    (ho : env.openDB env.dbFile = .error e) : s.main.opened = false ∨ s.main.failPath = true := by
  cases hm : s.main.opened
  · exact Or.inl rfl
  · exact Or.inr ((h.fail_iff hm).mpr ⟨e, ho⟩)

theorem not_failPath_of_ok {env : Env DB} {s : State DB} (h : Inv env s) {db : DB}
    (ho : env.openDB env.dbFile = .ok db) : s.main.failPath = false := by
  cases hf : s.main.failPath
  · rfl
  · have hm : s.main.opened = true := by
      cases hpc : s.main <;> rw [hpc] at hf <;> simp [MainPC.failPath] at hf <;> rfl
    obtain ⟨e, he⟩ := (h.fail_iff hm).mp hf
    rw [ho] at he
    cases he

theorem countP_close_main (tr : List Event)
    (h : ∀ e ∈ tr, e.tid ≠ .main → e.act.isClose = false) :
    tr.countP (fun e => e.act.isClose) = (actionsOf .main tr).countP Action.isClose := by
  induction tr with
  | nil => rfl
  | cons e tr ih =>
    have ih1 := ih (fun x hx => h x (List.mem_cons_of_mem _ hx))
    by_cases ht : e.tid = .main
    · simp only [actionsOf, List.filter_cons, ht, decide_True, if_true, List.map_cons,
        List.countP_cons] at ih1 ⊢
      rw [ih1]
    · have hc := h e (List.mem_cons_self _ _) ht
      simp only [actionsOf, List.filter_cons, ht, decide_False, List.countP_cons, hc] at ih1 ⊢
      simpa using ih1

theorem not_main_not_close {env : Env DB} {s : State DB} (h : Inv env s) :
    ∀ e ∈ s.trace, e.tid ≠ .main → e.act.isClose = false := by
  intro e he ht
  obtain ⟨t, a⟩ := e
  cases t with
  | main => exact absurd rfl ht
  | server =>
    cases a with
    | close r => exact absurd (mem_trace_server h he) (fun hm => close_not_server hm)
    | _ => rfl
  | world =>
    rcases mem_trace_world h he with e1 | ⟨r, e1⟩ <;> simp [e1, Action.isClose]

theorem countP_forcedLog (env : Env DB) : (forcedLog env).countP Action.isClose = 0 := by
  unfold forcedLog
  cases env.shutdownResult <;> simp [logForced, Action.isClose]

theorem countP_closeErrLog (env : Env DB) : (closeErrLog env).countP Action.isClose = 0 := by
  unfold closeErrLog
  cases env.closeResult <;> simp [logCloseErr, Action.isClose]

theorem countP_openErrLog (env : Env DB) : (openErrLog env).countP Action.isClose = 0 := by
  unfold openErrLog
  cases env.openDB env.dbFile <;> simp [logOpenErr, Action.isClose]

theorem countP_flagExit (env : Env DB) : (flagExit env).countP Action.isClose = 0 := by
  unfold flagExit
  cases env.flagResult.exitCode <;> simp [Action.isClose]

theorem close_count_main (env : Env DB) (t0 t1 : Nat) (pc : MainPC) :
    (mainActions env t0 t1 pc).countP Action.isClose ≤ 1 ∧
      (pc = .returned → (mainActions env t0 t1 pc).countP Action.isClose = 1) := by
  cases pc <;>
    simp [mainActions, startup, drain, wrapUp, shutdownActions, List.countP_append,
      List.countP_cons, countP_forcedLog, countP_closeErrLog, countP_openErrLog, countP_flagExit,
      Action.isClose]

/-! ### The clock, and the progress of `main` -/

theorem main_clock {env : Env DB} {s s1 : State DB} (hs : main env s = some s1) :
    s1.clock = s.clock := by
  unfold main at hs
  cases hm : s.main <;> rw [hm] at hs <;> simp only [] at hs
  all_goals (try split at hs)
  all_goals (try simp only [buildMux_eq] at hs)
  all_goals (try (simp only [reduceCtorEq] at hs))
  all_goals (simp only [Option.some.injEq] at hs; subst hs; rfl)

theorem stepServer_clock {env : Env DB} {s s1 : State DB} (hs : stepServer env s = some s1) :
    s1.clock = s.clock := by
  unfold stepServer at hs
  cases hg : s.server <;> rw [hg] at hs <;> simp only [] at hs
  all_goals (try split at hs)
  all_goals (try (simp only [reduceCtorEq] at hs))
  all_goals (simp only [Option.some.injEq] at hs; subst hs; rfl)

theorem step_clock {env : Env DB} {l : Label} {s s1 : State DB} (hs : step env l s = some s1) :
    s1.clock = s.clock + l.elapsed := by
  unfold step at hs
  cases hex : s.exit with
  | some c => rw [hex] at hs; simp at hs
  | none =>
    rw [hex] at hs
    simp only [] at hs
    cases hk : s.killed with
    | true => rw [hk] at hs; simp at hs
    | false =>
      rw [hk] at hs
      simp only [Bool.false_eq_true, if_false] at hs
      cases l with
      | main => exact main_clock hs
      | server => exact stepServer_clock hs
      | signal =>
        simp only [] at hs
        split at hs <;> (simp only [Option.some.injEq] at hs; subst hs; rfl)
      | request r =>
        simp only [] at hs
        split at hs
        · simp only [Option.some.injEq] at hs; subst hs; rfl
        · simp at hs
      | tick d =>
        simp only [Option.some.injEq] at hs
        subst hs
        rfl

theorem run_clock {env : Env DB} : ∀ (sched : List Label) (s s1 : State DB),
    run env sched s = some s1 → s1.clock = s.clock + (sched.map Label.elapsed).sum := by
  intro sched
  induction sched with
  | nil =>
    intro s s1 hr
    simp only [run, Option.some.injEq] at hr
    subst hr
    simp
  | cons l ls ih =>
    intro s s1 hr
    simp only [run] at hr
    split at hr
    · rename_i s2 hs
      rw [ih s2 s1 hr, step_clock hs]
      simp [Nat.add_assoc]
    · simp at hr

theorem not_killed_of_listening {env : Env DB} {s : State DB} (h : Inv env s)
    (hl : s.main.listening = true) : s.killed = false := by
  cases hk : s.killed
  · rfl
  · have := (h.killed_exit hk).2
    rw [h.notified_eq, hl] at this
    cases this

theorem main_progress {env : Env DB} {s : State DB} (h : Inv env s) (hex : s.exit = none)
    (hw : s.main = .wait → s.quit = true) : ∃ s1, main env s = some s1 := by
  have h3 := h.db_eq
  have h7 := h.exit_eq
  have h9 := h.fail_iff
  have h16 := h.flag_iff
  have h21 := h.err_seen
  rw [hex] at h7
  unfold main
  cases hm : s.main <;> rw [hm] at h3 h7 h9 h16 h21 hw <;> simp only []
  case flags => cases env.flagResult <;> exact ⟨_, rfl⟩
  case exitFlags =>
    have hne := (h16 (by decide)).mp rfl
    cases hr : env.flagResult
    · exact absurd hr hne
    · exact ⟨_, rfl⟩
    · exact ⟨_, rfl⟩
  case openDB => cases env.openDB env.dbFile <;> exact ⟨_, rfl⟩
  case logOpenErr =>
    obtain ⟨e, he⟩ := (h9 rfl).mp rfl
    rw [he]
    exact ⟨_, rfl⟩
  case routes =>
    have hno : ¬ ∃ e, env.openDB env.dbFile = .error e := fun hf => by
      have := (h9 rfl).mpr hf
      cases this
    cases ho : env.openDB env.dbFile with
    | error e => exact absurd ⟨e, ho⟩ hno
    | ok db =>
      have : s.db = some db := by rw [h3]; simp [dbAt, MainPC.opened, ho, Except.toOption]
      rw [this]
      simp only [buildMux_eq]
      exact ⟨_, rfl⟩
  case wait => rw [hw rfl]; exact ⟨_, rfl⟩
  case shutdownWait => cases env.shutdownResult <;> exact ⟨_, rfl⟩
  case logForced =>
    cases hr : env.shutdownResult with
    | none => exact absurd hr (h21.1 rfl)
    | some e => exact ⟨_, rfl⟩
  case deferClose => cases env.closeResult <;> exact ⟨_, rfl⟩
  case logCloseErr =>
    cases hr : env.closeResult with
    | none => exact absurd hr (h21.2 rfl)
    | some e => exact ⟨_, rfl⟩
  case flagsExited =>
    have hne := (h16 (by decide)).mp rfl
    simp only [exitOf] at h7
    cases hr : env.flagResult with
    | parsed => exact absurd hr hne
    | help => rw [hr] at h7; cases h7
    | invalid => rw [hr] at h7; cases h7
  all_goals first
    | exact ⟨_, rfl⟩
    | (simp [exitOf] at h7)

/-! ### What `main` has done once it has taken the signal -/

theorem ctx_begin (env : Env DB) (t0 t1 : Nat) {pc : MainPC} (h : pc.ctxMade = true) :
    ∃ rest, mainActions env t0 t1 pc =
        startup env ++ [.receive t0, .log .Info "Shutting down server..." [],
          .withTimeout t1 (t1 + shutDownTimeout)] ++ rest ∧
      (∀ now d, Action.withTimeout now d ∉ rest) ∧ (∀ now, Action.receive now ∉ rest) := by
  cases pc <;> simp [MainPC.ctxMade, MainPC.received, MainPC.listening, MainPC.spawned] at h
  all_goals
    simp only [mainActions, drain, shutdownActions, wrapUp, List.append_assoc, List.cons_append,
      List.nil_append]
    refine ⟨_, rfl, ?_, ?_⟩ <;> intros <;>
      simp [mem_forcedLog, mem_closeErrLog, logForced, logCloseErr]

theorem shutdown_begin {env : Env DB} {t0 t1 : Nat} {pc : MainPC} {d : Nat}
    (h : Action.shutdown d ∈ mainActions env t0 t1 pc) :
    ∃ rest, mainActions env t0 t1 pc =
        startup env ++ [.receive t0, .log .Info "Shutting down server..." [],
          .withTimeout t1 (t1 + shutDownTimeout), .shutdown (t1 + shutDownTimeout)] ++ rest ∧
      (∀ x, Action.shutdown x ∉ rest) := by
  cases pc <;>
    simp [mainActions, startup, mem_openErrLog, mem_flagExit, logOpenErr] at h
  all_goals
    simp only [mainActions, drain, shutdownActions, wrapUp, List.append_assoc, List.cons_append,
      List.nil_append]
    refine ⟨_, rfl, ?_⟩ ; intros ;
      simp [mem_forcedLog, mem_closeErrLog, logForced, logCloseErr]

theorem received_begin (env : Env DB) (t0 t1 t : Nat) {pc : MainPC} (h : pc.received = true)
    (ht : pc.ctxMade = true → t = t1) :
    ∃ rest, mainActions env t0 t1 pc ++ rest = startup env ++ .receive t0 :: afterSignal env t ∧
      (rest = [] ↔ pc = .returned) := by
  cases pc <;> simp [MainPC.received, MainPC.listening, MainPC.spawned] at h
  all_goals try
    have hsame := ht rfl
    subst hsame
  all_goals
    simp only [mainActions, drain, shutdownActions, afterSignal, List.append_assoc,
      List.cons_append, List.nil_append, List.append_cancel_left_eq, List.cons.injEq, true_and,
      wrapUp, reduceCtorEq, iff_false]
    exact ⟨_, rfl, by simp⟩

theorem unexpected_iff (r : Option GoErr) :
    unexpected r = true ↔ ∃ e, r = some e ∧ e ≠ .ErrServerClosed := by
  cases r <;> simp [unexpected]

theorem step_main_eq {env : Env DB} {s : State DB} (hex : s.exit = none) (hk : s.killed = false) :
    step env .main s = main env s := by
  simp [step, hex, hk]

theorem spawned_of_server {env : Env DB} {s : State DB} (h : Inv env s) {a : Action}
    (hm : (⟨.server, a⟩ : Event) ∈ s.trace) : s.main.spawned = true := by
  cases hsp : s.main.spawned
  · have hidle := h.server_idle.mpr hsp
    have hmem := mem_trace_server h hm
    rw [hidle] at hmem
    simp [serverActions] at hmem
  · rfl

/-! ## The claims -/

theorem mux_of_state {env : Env DB} {s : State DB} {mux : ServeMux (Handler DB)}
    (h : Inv env s) (hmux : s.mux = some mux) :
    ∃ db, env.openDB env.dbFile = .ok db ∧ s.db = some db ∧ mux = mainMux db := by
  have h4 := h.mux_eq
  rw [hmux] at h4
  split at h4
  · have h3 := h.db_eq
    cases hd : dbAt env s.main with
    | none => rw [hd] at h4; simp at h4
    | some db =>
      rw [hd] at h4 h3
      simp only [Option.map_some', Option.some.injEq] at h4
      refine ⟨db, ?_, h3, h4⟩
      unfold dbAt at hd
      split at hd
      · cases ho : env.openDB env.dbFile with
        | error e => rw [ho] at hd; simp [Except.toOption] at hd
        | ok d => rw [ho] at hd; simp [Except.toOption] at hd; rw [hd]
      · simp at hd
  · simp at h4

theorem root_get_dispatch (env : Env DB) (sched : List Label) (s : State DB)
    (mux : ServeMux (Handler DB)) (splitHostPort : Str → Option Str) (r : Request)
    (hrun : exec env sched = some s) (hmux : s.mux = some mux) (hinc : r.incoming)
    (hmethod : r.Method = "GET".toList) (hpath : r.URL.EscapedPath = "/".toList) :
    ∃ db, env.openDB env.dbFile = .ok db ∧ s.db = some db ∧
      mux.ServeHTTP splitHostPort r = .registered (.ipInfo db) := by
  obtain ⟨db, hopen, hdb, rfl⟩ := mux_of_state (inv_exec hrun) hmux
  refine ⟨db, hopen, hdb, ?_⟩
  have hm : r.Method ≠ "CONNECT".toList := by rw [hmethod]; decide
  have hc : cleanPath r.URL.EscapedPath = r.URL.EscapedPath := by rw [hpath]; decide
  rw [serve_canonical splitHostPort db r hinc hm hc, if_pos]
  exact ⟨Or.inl hmethod, by rw [hpath]; exact rootPath_slash⟩

/-- C1: every incoming request with the method GET and the URL path exactly `/` is dispatched,
by the mux that `main` has built, to the `ipInfo` handler that holds the database which
`geoip2.Open` returned, whatever the host, the query string and the headers are. -/
theorem root_get_goes_to_ipInfo (env : Env DB) (sched : List Label) (s : State DB)
    (mux : ServeMux (Handler DB)) (splitHostPort : Str → Option Str) (r : Request)
    (hrun : exec env sched = some s) (hmux : s.mux = some mux) (hinc : r.incoming)
    (hmethod : r.Method = "GET".toList) (hpath : r.URL.EscapedPath = "/".toList) :
    ∃ db, env.openDB env.dbFile = .ok db ∧ s.db = some db ∧
      mux.ServeHTTP splitHostPort r = .registered (.ipInfo db) :=
  root_get_dispatch env sched s mux splitHostPort r hrun hmux hinc hmethod hpath

/-- C1 on a run of `main` up to `<-quit` and a GET request for `/` with a host with a port, a
query string and a header. -/
theorem root_get_goes_to_ipInfo_witness :
    ∃ db, (quietEnv (7 : Nat)).openDB (quietEnv (7 : Nat)).dbFile = .ok db ∧ some 7 = some db ∧
      (mainMux 7).ServeHTTP splitAtColon getRoot = .registered (.ipInfo db) :=
  root_get_goes_to_ipInfo (quietEnv (7 : Nat)) startSchedule
    { main := .wait, server := .logStarting, db := some 7, mux := some (mainMux 7),
      srv := some (newServer ":8080".toList), notified := true, quit := false, exit := none,
      killed := false, clock := 0, recvAt := 0, ctxAt := 0,
      trace := [⟨.main, .flagParse .parsed⟩, ⟨.main, .openDB "GeoLite2-City.mmdb".toList⟩,
        ⟨.main, .routes⟩, ⟨.main, .newServer (newServer ":8080".toList)⟩, ⟨.main, .go⟩,
        ⟨.main, .notify⟩] }
    (mainMux 7) splitAtColon getRoot rfl rfl (by decide) rfl rfl

/-- C3: when the client address of a GET request for `/` is found in the opened database, the
answer is 200 with the content type `application/json` and the serialization of exactly
that record as its body. -/
theorem found_record_is_served {Rec : Type} (lib : GeoLib DB Rec) (env : Env DB)
    (sched : List Label) (s : State DB) (mux : ServeMux (Handler DB))
    (splitHostPort : Str → Option Str) (r : Request) (db : DB) (ip : Str) (record : Rec)
    (hrun : exec env sched = some s) (hmux : s.mux = some mux) (hinc : r.incoming)
    (hmethod : r.Method = "GET".toList) (hpath : r.URL.EscapedPath = "/".toList)
    (hopen : env.openDB env.dbFile = .ok db) (haddr : lib.clientAddress r = some ip)
    (hfound : lib.lookup db ip = .found record) :
    respond lib splitHostPort mux r =
      some { status := 200, contentType := "application/json".toList, body := lib.encode record } := by
  obtain ⟨db1, hopen1, _, hserve⟩ :=
    root_get_dispatch env sched s mux splitHostPort r hrun hmux hinc hmethod hpath
  have hdb : db1 = db := by
    rw [hopen] at hopen1
    simp only [Except.ok.injEq] at hopen1
    exact hopen1.symm
  subst hdb
  simp [respond, hserve, Handler.ServeHTTP, ipInfo.ServeHTTP, haddr, hfound]

/-- C3 on the scenario of §8: from `203.0.113.5` the answer is 200 with the JSON of the
record of Testville. -/
theorem found_record_is_served_witness :
    respond testLib splitAtColon (mainMux testDB) getRoot =
      some { status := 200, contentType := "application/json".toList,
             body := "\x7b\"country\":\"Testland\",\"city\":\"Testville\",\"latitude\":1.0,\"longitude\":2.0\x7d".toList } :=
  found_record_is_served testLib (quietEnv testDB) startSchedule
    { main := .wait, server := .logStarting, db := some testDB, mux := some (mainMux testDB),
      srv := some (newServer ":8080".toList), notified := true, quit := false, exit := none,
      killed := false, clock := 0, recvAt := 0, ctxAt := 0,
      trace := [⟨.main, .flagParse .parsed⟩, ⟨.main, .openDB "GeoLite2-City.mmdb".toList⟩,
        ⟨.main, .routes⟩, ⟨.main, .newServer (newServer ":8080".toList)⟩, ⟨.main, .go⟩,
        ⟨.main, .notify⟩] }
    (mainMux testDB) splitAtColon getRoot testDB "203.0.113.5".toList
    { country := "Testland".toList, city := "Testville".toList, latitude := "1.0".toList,
      longitude := "2.0".toList }
    rfl rfl (by decide) rfl rfl rfl rfl rfl

/-- C10 as stated fails in its last part: the request `CONNECT geo.example.com:443` has an
authority as its target and so the empty path, which the mux does not clean; neither
registered pattern matches it, and the mux does not answer it with a registered handler. -/
theorem connect_authority_matches_no_pattern :
    (rootPat.matchesRequest connectRequest.Host connectRequest.Method
        connectRequest.URL.EscapedPath,
      restPat.matchesRequest connectRequest.Host connectRequest.Method
        connectRequest.URL.EscapedPath,
      (buildMux (7 : Nat)).map (fun mux =>
        ((mux.tree.treeMatch connectRequest.URL.Host connectRequest.Method
            connectRequest.URL.EscapedPath).isSome,
         (mux.tree.treeMatch connectRequest.Host connectRequest.Method
            connectRequest.URL.EscapedPath).isSome,
         match mux.ServeHTTP splitAtColon connectRequest with
         | .registered _ => true
         | _ => false))) =
    (false, false, .ok (false, false, false)) := by
  rfl

/-- C10, amended: both patterns of `main` parse, they do not conflict (`GET /{$}` is more
specific than `/`: every request that it matches is matched by `/`, and not the other way
round), so the two registrations of `main` do not panic; and every request with a path that
is not empty, so every request that is not a CONNECT, its path being cleaned first, matches
a registered pattern. -/
theorem routes_register_without_conflict (db : DB) :
    parsePattern rootPattern = .ok rootPat ∧ parsePattern restPattern = .ok restPat ∧
    rootPat.comparePathsAndMethods restPat = .moreSpecific ∧
    rootPat.conflictsWith restPat = false ∧ restPat.conflictsWith rootPat = false ∧
    (∀ host method path, rootPat.matchesRequest host method path = true →
      restPat.matchesRequest host method path = true) ∧
    (restPat.matchesRequest [] "GET".toList "/a".toList = true ∧
      rootPat.matchesRequest [] "GET".toList "/a".toList = false) ∧
    (∃ mux, buildMux db = .ok mux ∧ mux.patterns = [rootPat, restPat] ∧
      ∀ host method path, path ≠ [] → (mux.tree.treeMatch host method path).isSome = true) ∧
    (∀ path, cleanPath path ≠ []) := by
  refine ⟨rfl, rfl, by decide, by decide, by decide, ?_, ⟨by decide, by decide⟩, ?_, cleanPath_ne_nil⟩
  · intro host method path h
    rw [rootPat_matches] at h
    rw [restPat_matches]
    simp only [decide_eq_true_eq] at h ⊢
    exact h.2.1
  · exact ⟨mainMux db, buildMux_eq db, rfl, fun host method path hp =>
      treeMatch_nonempty db host method path hp⟩


/-- C4: when the flags are accepted and `geoip2.Open` returns an error, `main` logs the
error with the file name and ends the process with exit status 1, and nothing else happens
in that execution: no mux, no server, no goroutine, no call of `ListenAndServe` and no
request served.  Every execution is a part of that run, `main` is never held up in it, and an
exit status, if there is one, is 1 (a signal that arrives in these statements, before
`signal.Notify`, ends the process without one). -/
theorem open_failure_is_fatal (env : Env DB) (e : GoErr) (hflags : env.flagResult = .parsed)
    (hopen : env.openDB env.dbFile = .error e) :
    (∃ s, exec env [.main, .main, .main, .main] = some s ∧ s.exit = some 1 ∧
      s.trace = [⟨.main, .flagParse .parsed⟩, ⟨.main, .openDB env.dbFile⟩,
        ⟨.main, .log .Error "can't open GeoIP2 database" [("err", e.Error), ("db", env.dbFile)]⟩,
        ⟨.main, .exit 1⟩]) ∧
    (∀ sched s, exec env sched = some s →
      (∃ rest, s.trace ++ rest = [⟨.main, .flagParse .parsed⟩, ⟨.main, .openDB env.dbFile⟩,
        ⟨.main, .log .Error "can't open GeoIP2 database" [("err", e.Error), ("db", env.dbFile)]⟩,
        ⟨.main, .exit 1⟩]) ∧
      s.mux = none ∧ s.srv = none ∧ s.server = .idle ∧
      (∀ t a, (⟨t, .listenAndServe a⟩ : Event) ∉ s.trace) ∧
      (∀ t r, (⟨t, .serve r⟩ : Event) ∉ s.trace) ∧
      (∀ c, s.exit = some c → c = 1 ∧
        (⟨.main, .log .Error "can't open GeoIP2 database" [("err", e.Error), ("db", env.dbFile)]⟩ :
          Event) ∈ s.trace) ∧
      (s.exit = none → s.killed = false → ∃ s1, step env .main s = some s1)) := by
  constructor
  · simp [exec, run, step, main, State.init, State.mainTo, hopen, hflags, logOpenErr]
  · intro sched s hrun
    have h := inv_exec hrun
    have hlog : openErrLog env = [logOpenErr env e] := by simp [openErrLog, hopen]
    have key : s.main = .flags ∨ s.main = .openDB ∨ s.main = .logOpenErr ∨
        s.main = .exitOpenErr ∨ s.main = .exited := by
      have hff : s.main ≠ .flags → s.main.flagFail = false := by
        intro hne
        cases hf : s.main.flagFail
        · rfl
        · exact absurd hflags ((h.flag_iff hne).mp hf)
      rcases failPath_of_error h hopen with hf | hf
      · cases hm : s.main <;> rw [hm] at hf hff <;> simp [MainPC.opened] at hf <;>
          simp [MainPC.flagFail] at hff <;> simp
      · cases hm : s.main <;> rw [hm] at hf <;> simp [MainPC.failPath] at hf <;> simp
    have hprog : s.exit = none → s.killed = false → ∃ s1, step env .main s = some s1 := by
      intro hex hk
      rw [step_main_eq hex hk]
      apply main_progress h hex
      intro hw
      rcases key with hm | hm | hm | hm | hm <;> rw [hm] at hw <;> cases hw
    have hsp : s.main.spawned = false := by
      rcases key with hm | hm | hm | hm | hm <;> rw [hm] <;> rfl
    have hidle := h.server_idle.mpr hsp
    have htr := trace_before_spawn h hsp
    have hmux := h.mux_eq
    have hsrv := h.srv_eq
    have hexit := h.exit_eq
    rw [hidle] at hexit
    refine ⟨?_, ?_, ?_, hidle, ?_, ?_, ?_, hprog⟩
    all_goals
      rcases key with hm | hm | hm | hm | hm <;> rw [hm] at htr hmux hsrv hexit <;>
        simp only [mainActions, hlog, List.map, List.cons_append, List.nil_append, muxSet, srvSet,
          exitOf] at htr hmux hsrv hexit <;>
        simp [htr, hmux, hsrv, hexit, logOpenErr]

/-- C4 on a missing database file. -/
theorem open_failure_is_fatal_witness :
    (∃ s, exec noFileEnv [.main, .main, .main, .main] = some s ∧ s.exit = some 1 ∧
      s.trace = [⟨.main, .flagParse .parsed⟩, ⟨.main, .openDB "missing.mmdb".toList⟩,
        ⟨.main, .log .Error "can't open GeoIP2 database"
          [("err", "open missing.mmdb: no such file or directory".toList),
           ("db", "missing.mmdb".toList)]⟩,
        ⟨.main, .exit 1⟩]) :=
  (open_failure_is_fatal noFileEnv (.other "open missing.mmdb: no such file or directory".toList)
    rfl rfl).1


/-- C5 as stated fails: `ListenAndServe` returns "address already in use", the signal
arrives before the goroutine has logged the error, `main` runs lines 60 to 71 and returns:
the listener has reported an unexpected error and the exit status is 0. -/
theorem listener_error_but_exit_zero :
    (exec bindFailEnv raceSchedule).map
      (fun s => (s.exit, unexpected bindFailEnv.listenResult,
        decide ((⟨.server, .listenReturn bindFailEnv.listenResult⟩ : Event) ∈ s.trace),
        s.server)) =
    some (some 0, true, true, .logServerErr) := by
  rfl

/-- C5, amended: the exit status of an ended process is 0, 1 or 2.  It is 2 exactly when
`flag.Parse()` rejects the command line.  It is not 0 exactly when the command line is
rejected, or it is accepted and `geoip2.Open` failed, or the goroutine of line 50 ran its
`os.Exit(1)`, which it does only after `ListenAndServe` has returned an error other than
`http.ErrServerClosed` and the goroutine has logged it.  The status 0 comes from the help
flag or from the return of `main` after a signal.  When the command line is accepted, the
database opens and `ListenAndServe` returns nil or `http.ErrServerClosed`, the status is 0.
Once `ListenAndServe` has returned another error, the goroutine logs it and exits with
status 1 in its next statements; when it has returned nil or `http.ErrServerClosed`, the
goroutine returns and ends nothing.  A signal that arrives before `signal.Notify` has run
ends the process without an exit status. -/
theorem exit_status_of_process (env : Env DB) :
    (∀ sched s c, exec env sched = some s → s.exit = some c →
      (c = 0 ∨ c = 1 ∨ c = 2) ∧
      (c = 2 ↔ env.flagResult = .invalid) ∧
      (c ≠ 0 ↔ (env.flagResult = .invalid ∨
        (env.flagResult = .parsed ∧ ∃ e, env.openDB env.dbFile = .error e) ∨
        (⟨.server, .exit 1⟩ : Event) ∈ s.trace)) ∧
      ((⟨.server, .exit 1⟩ : Event) ∈ s.trace →
        c = 1 ∧ ∃ e, env.listenResult = some e ∧ e ≠ .ErrServerClosed ∧
          (⟨.server, .listenReturn (some e)⟩ : Event) ∈ s.trace ∧
          (⟨.server, .log .Error "HTTP server error" [("err", e.Error)]⟩ : Event) ∈ s.trace) ∧
      (c = 0 → env.flagResult = .help ∨
        (env.flagResult = .parsed ∧ (⟨.world, .signal⟩ : Event) ∈ s.trace ∧
          (∃ t, (⟨.main, .receive t⟩ : Event) ∈ s.trace) ∧
          (⟨.main, .mainReturn⟩ : Event) ∈ s.trace)) ∧
      (env.flagResult = .parsed → (∃ db, env.openDB env.dbFile = .ok db) →
        (env.listenResult = none ∨ env.listenResult = some .ErrServerClosed) → c = 0)) ∧
    (∀ s : State DB, s.server = .serving → s.exit = none → s.killed = false →
      ∀ e, env.listenResult = some e → e ≠ .ErrServerClosed →
      ∃ s1, run env [.server, .server, .server] s = some s1 ∧ s1.exit = some 1 ∧
        s1.trace = s.trace ++ [⟨.server, .listenReturn (some e)⟩,
          ⟨.server, .log .Error "HTTP server error" [("err", e.Error)]⟩, ⟨.server, .exit 1⟩]) ∧
    (∀ s : State DB, s.server = .serving → s.exit = none → s.killed = false →
      (env.listenResult = none ∨ env.listenResult = some .ErrServerClosed) →
      ∃ s1, run env [.server] s = some s1 ∧ s1.exit = none ∧ s1.server = .returned ∧
        s1.trace = s.trace ++ [⟨.server, .listenReturn env.listenResult⟩]) ∧
    (∀ sched s, exec env sched = some s →
      (s.notified = false → s.exit = none → s.killed = false →
        ∃ s1, step env .signal s = some s1 ∧ s1.killed = true ∧ s1.exit = none ∧
          s1.trace = s.trace) ∧
      (s.killed = true → s.exit = none ∧ s.notified = false ∧ ∀ l, step env l s = none)) := by
  refine ⟨?_, ?_, ?_, ?_⟩
  · intro sched s c hrun hc
    have h := inv_exec hrun
    have hexit : (⟨.server, .exit 1⟩ : Event) ∈ s.trace → s.server = .exited :=
      fun hm => exit_mem_server (mem_trace_server h hm)
    have hsrvtr : s.server = .exited → (⟨.server, .exit 1⟩ : Event) ∈ s.trace ∧
        ∃ e, env.listenResult = some e ∧ e ≠ .ErrServerClosed ∧
          (⟨.server, .listenReturn (some e)⟩ : Event) ∈ s.trace ∧
          (⟨.server, .log .Error "HTTP server error" [("err", e.Error)]⟩ : Event) ∈ s.trace := by
      intro hg
      have hd := h.serverDone
      rw [hg] at hd
      obtain ⟨e, he, hne⟩ := (unexpected_iff _).mp (h.server_err (by rw [hg]; rfl))
      refine ⟨?_, e, he, hne, ?_, ?_⟩ <;> apply mem_of_mem_actionsOf <;> rw [hd] <;>
        simp [serverActions, serverErrLog, he, logServerErr]
    have hparsed : s.main.flagFail = false → s.main ≠ .flags → env.flagResult = .parsed :=
      fun hf hne => parsed_of_opened h hne hf
    rcases exit_cases h hc with ⟨hm, hcode⟩ | ⟨hc1, hm⟩ | ⟨hc0, hm⟩ | ⟨hc1, hg, hm1, hm2, hsp⟩
    · have hnoexit : (⟨.server, .exit 1⟩ : Event) ∉ s.trace := by
        intro hx
        have := spawned_of_server h hx
        rw [hm] at this
        cases this
      rcases exitCode_cases hcode with ⟨hr, hc0⟩ | ⟨hr, hc2⟩
      · subst hc0
        refine ⟨Or.inl rfl, ?_, ?_, ?_, ?_, ?_⟩
        · simp [hr]
        · simp [hr, hnoexit]
        · intro hx; exact absurd hx hnoexit
        · intro _; exact Or.inl hr
        · intro _ _ _; rfl
      · subst hc2
        refine ⟨Or.inr (Or.inr rfl), ?_, ?_, ?_, ?_, ?_⟩
        · simp [hr]
        · simp [hr]
        · intro hx; exact absurd hx hnoexit
        · intro h0; cases h0
        · intro hp; rw [hr] at hp; cases hp
    · have hfail : ∃ e, env.openDB env.dbFile = .error e :=
        (h.fail_iff (by rw [hm]; rfl)).mp (by rw [hm]; rfl)
      have hp : env.flagResult = .parsed := hparsed (by rw [hm]; rfl) (by rw [hm]; decide)
      subst hc1
      refine ⟨Or.inr (Or.inl rfl), ?_, ?_, ?_, ?_, ?_⟩
      · simp [hp]
      · simp [hp, hfail]
      · intro hx
        exact absurd hm (h.ends_once (hexit hx)).2
      · intro h0; cases h0
      · intro _ ⟨db, hdb⟩
        obtain ⟨e, he⟩ := hfail
        rw [hdb] at he
        cases he
    · have hnofail : ¬ ∃ e, env.openDB env.dbFile = .error e := by
        intro hf
        have := (h.fail_iff (by rw [hm]; rfl)).mpr hf
        rw [hm] at this
        simp [MainPC.failPath] at this
      have hp : env.flagResult = .parsed := hparsed (by rw [hm]; rfl) (by rw [hm]; decide)
      have hnoexit : (⟨.server, .exit 1⟩ : Event) ∉ s.trace :=
        fun hx => absurd hm (h.ends_once (hexit hx)).1
      have hd := h.mainDone
      rw [hm] at hd
      subst hc0
      refine ⟨Or.inl rfl, ?_, ?_, ?_, ?_, ?_⟩
      · simp [hp]
      · simp [hp, hnofail, hnoexit]
      · intro hx; exact absurd hx hnoexit
      · intro _
        refine Or.inr ⟨hp, h.signal_seen (Or.inr (by rw [hm]; rfl)), ⟨s.recvAt, ?_⟩, ?_⟩ <;>
          apply mem_of_mem_actionsOf <;> rw [hd] <;>
          simp [mainActions, shutdownActions, drain, wrapUp]
      · intro _ _ _; rfl
    · have hp : env.flagResult = .parsed := by
        apply hparsed
        · cases hpc : s.main <;> rw [hpc] at hsp <;> simp [MainPC.spawned] at hsp <;> rfl
        · intro hpc; rw [hpc] at hsp; cases hsp
      obtain ⟨hx, e, he, hne, hret, hlogged⟩ := hsrvtr hg
      subst hc1
      refine ⟨Or.inr (Or.inl rfl), ?_, ?_, ?_, ?_, ?_⟩
      · simp [hp]
      · simp [hp, hx]
      · intro _; exact ⟨rfl, e, he, hne, hret, hlogged⟩
      · intro h0; cases h0
      · intro _ _ hclosed
        rcases hclosed with hn | hn <;> rw [hn] at he <;> cases he
        exact absurd rfl hne
  · intro s hg hex hk e he hne
    have hu : unexpected (some e) = true := by simp [unexpected, hne]
    simp [run, step, stepServer, State.serverTo, hg, hex, hk, hu, he, logServerErr]
  · intro s hg hex hk he
    rcases he with he | he <;>
      simp [run, step, stepServer, State.serverTo, hg, hex, hk, he, unexpected]
  · intro sched s hrun
    have h := inv_exec hrun
    constructor
    · intro hn hex hk
      simp [step, hex, hk, hn]
    · intro hk
      refine ⟨(h.killed_exit hk).1, (h.killed_exit hk).2, ?_⟩
      intro l
      simp [step, (h.killed_exit hk).1, hk]

/-- C5, amended, on three runs: the listener cannot bind, so the status is 1; a flag is not
defined, so the status is 2; and a signal arrives before `signal.Notify`, so the process is
ended without a status. -/
theorem exit_status_of_process_witness :
    (∃ s, exec bindFailEnv bindFailSchedule = some s ∧ s.exit = some 1 ∧
      ((1 : Nat) ≠ 0 ↔ (bindFailEnv.flagResult = .invalid ∨
        (bindFailEnv.flagResult = .parsed ∧
          ∃ e, bindFailEnv.openDB bindFailEnv.dbFile = .error e) ∨
        (⟨.server, .exit 1⟩ : Event) ∈ s.trace))) ∧
    (∃ s, exec badFlagEnv [.main, .main] = some s ∧ s.exit = some 2 ∧
      ((2 : Nat) = 2 ↔ badFlagEnv.flagResult = .invalid)) ∧
    (∃ s, exec (quietEnv (7 : Nat)) [.main, .main, .signal] = some s ∧ s.killed = true ∧
      s.exit = none ∧ ∀ l, step (quietEnv (7 : Nat)) l s = none) :=
  ⟨⟨_, rfl, rfl, ((exit_status_of_process bindFailEnv).1 bindFailSchedule _ 1 rfl rfl).2.2.1⟩,
    ⟨_, rfl, rfl, ((exit_status_of_process badFlagEnv).1 [.main, .main] _ 2 rfl rfl).2.1⟩,
    ⟨_, rfl, rfl,
      (((exit_status_of_process (quietEnv (7 : Nat))).2.2.2 [.main, .main, .signal] _ rfl).2
        rfl).1,
      (((exit_status_of_process (quietEnv (7 : Nat))).2.2.2 [.main, .main, .signal] _ rfl).2
        rfl).2.2⟩⟩


/-- C6 as stated fails: when the listener cannot bind, the goroutine ends the process with
`os.Exit(1)`; the database has been opened and `Close` is never called. -/
theorem listener_failure_leaves_database_open :
    (exec bindFailEnv bindFailSchedule).map
      (fun s => (s.exit, s.db, s.trace.countP (fun e => e.act.isClose))) =
    some (some 1, some 7, 0) := by
  rfl

/-- C6, amended: in every execution `Close` is called at most once, and only after
`Shutdown` has returned; in every execution that ends by `main` returning (exit status 0,
which apart from that only the help flag gives) the database was opened and `Close` is
called exactly once. -/
theorem close_once_after_shutdown (env : Env DB) (sched : List Label) (s : State DB)
    (hrun : exec env sched = some s) :
    s.trace.countP (fun e => e.act.isClose) ≤ 1 ∧
    (∀ pre post t r, s.trace = pre ++ ⟨t, .close r⟩ :: post →
      (⟨.main, .shutdownReturn env.shutdownResult⟩ : Event) ∈ pre) ∧
    (s.exit = some 0 → env.flagResult = .help ∨
      (s.trace.countP (fun e => e.act.isClose) = 1 ∧
        ∃ db, env.openDB env.dbFile = .ok db ∧ s.db = some db)) ∧
    ((⟨.main, .mainReturn⟩ : Event) ∈ s.trace →
      s.exit = some 0 ∧ s.trace.countP (fun e => e.act.isClose) = 1 ∧
        ∃ db, env.openDB env.dbFile = .ok db ∧ s.db = some db) := by
  have h := inv_exec hrun
  have hcount := countP_close_main s.trace (not_main_not_close h)
  rw [h.mainDone] at hcount
  have hret : s.main = .returned →
      s.trace.countP (fun e => e.act.isClose) = 1 ∧
        ∃ db, env.openDB env.dbFile = .ok db ∧ s.db = some db := by
    intro hm
    refine ⟨by rw [hcount]; exact (close_count_main env _ _ s.main).2 hm, ?_⟩
    have hdb := h.db_eq
    rw [hm] at hdb
    have hnofail : ¬ ∃ e, env.openDB env.dbFile = .error e := by
      intro hf
      have := (h.fail_iff (by rw [hm]; rfl)).mpr hf
      rw [hm] at this
      simp [MainPC.failPath] at this
    cases ho : env.openDB env.dbFile with
    | error e => exact absurd ⟨e, ho⟩ hnofail
    | ok db => exact ⟨db, rfl, by rw [hdb]; simp [dbAt, MainPC.opened, ho, Except.toOption]⟩
  refine ⟨?_, h.close_order, ?_, ?_⟩
  · rw [hcount]; exact (close_count_main env _ _ s.main).1
  · intro h0
    rcases exit_cases h h0 with ⟨_, hcode⟩ | ⟨hc, _⟩ | ⟨_, hm⟩ | ⟨hc, _⟩
    · rcases exitCode_cases hcode with ⟨hr, _⟩ | ⟨_, hc⟩
      · exact Or.inl hr
      · cases hc
    · cases hc
    · exact Or.inr (hret hm)
    · cases hc
  · intro hmem
    have hm := mainReturn_mem_main (mem_trace_main h hmem)
    have hex := h.exit_eq
    rw [hm] at hex
    exact ⟨hex, hret hm⟩

/-- C6, amended, on a run that shuts down after a signal although `Shutdown` and `Close` fail:
one `Close`. -/
theorem close_once_after_shutdown_witness :
    ∃ s, exec slowEnv slowSchedule = some s ∧ s.exit = some 0 ∧
      s.trace.countP (fun e => e.act.isClose) = 1 :=
  ⟨_, rfl, rfl,
    ((close_once_after_shutdown slowEnv slowSchedule _ rfl).2.2.2 (by decide)).2.1⟩

/-- C7: the server is built with a read timeout of 5 seconds, which is also the time allowed
for the request headers, and with no other timeout.  The context given to `Shutdown` is made
by `main` once it has taken the signal, with nothing but the log record of line 62 in
between, and its deadline is 10 seconds after the clock at that moment; `Shutdown` is called
next, once, with that deadline.  The clock is the time that has passed in the run. -/
theorem timeouts_are_fixed (env : Env DB) (sched : List Label) (s : State DB)
    (hrun : exec env sched = some s) :
    Second = 10 ^ 9 ∧ httpReadTimeout = 5 * Second ∧ shutDownTimeout = 10 * Second ∧
    (∀ srv, s.srv = some srv →
      srv.ReadTimeout = 5 * Second ∧ srv.readHeaderTimeout = 5 * Second ∧
      srv.ReadHeaderTimeout = 0 ∧ srv.WriteTimeout = 0 ∧ srv.IdleTimeout = 0) ∧
    (∀ t srv, (⟨t, .newServer srv⟩ : Event) ∈ s.trace → s.srv = some srv) ∧
    (∀ t now d, (⟨t, .withTimeout now d⟩ : Event) ∈ s.trace →
      t = .main ∧ d = now + 10 * Second ∧ now ≤ s.clock ∧
      (⟨.world, .signal⟩ : Event) ∈ s.trace ∧
      ∃ t0 rest, t0 ≤ now ∧
        actionsOf .main s.trace =
          [.flagParse .parsed, .openDB env.dbFile, .routes, .newServer (newServer env.addr),
            .go, .notify, .receive t0, .log .Info "Shutting down server..." [],
            .withTimeout now d] ++ rest ∧
        (∀ now1 d1, Action.withTimeout now1 d1 ∉ rest)) ∧
    (∀ t d, (⟨t, .shutdown d⟩ : Event) ∈ s.trace →
      t = .main ∧ ∃ t0 now rest, t0 ≤ now ∧ d = now + 10 * Second ∧
        actionsOf .main s.trace =
          [.flagParse .parsed, .openDB env.dbFile, .routes, .newServer (newServer env.addr),
            .go, .notify, .receive t0, .log .Info "Shutting down server..." [],
            .withTimeout now d, .shutdown d] ++ rest ∧
        (∀ d1, Action.shutdown d1 ∉ rest)) ∧
    s.clock = (sched.map Label.elapsed).sum ∧
    (s.main = .wait → s.quit = true → s.exit = none →
      ∃ s1, run env [.main, .main, .main, .main] s = some s1 ∧
        s1.trace = s.trace ++ [⟨.main, .receive s.clock⟩,
          ⟨.main, .log .Info "Shutting down server..." []⟩,
          ⟨.main, .withTimeout s.clock (s.clock + 10 * Second)⟩,
          ⟨.main, .shutdown (s.clock + 10 * Second)⟩]) := by
  have h := inv_exec hrun
  have hT : shutDownTimeout = 10 * Second := rfl
  refine ⟨by decide, rfl, rfl, ?_, ?_, ?_, ?_, ?_, ?_⟩
  · intro srv hsrv
    have h5 := h.srv_eq
    rw [hsrv] at h5
    split at h5
    · simp only [Option.some.injEq] at h5
      subst h5
      simp [newServer, httpReadTimeout, Server.readHeaderTimeout, Second]
    · simp at h5
  · intro t srv hm
    cases t with
    | main =>
      have hmem := mem_trace_main h hm
      have hs := newServer_mem_main hmem
      subst hs
      rw [h.srv_eq]
      have : srvSet s.main = true := by
        cases hpc : s.main <;> rw [hpc] at hmem <;>
          simp [mainActions, startup, mem_openErrLog, mem_flagExit, logOpenErr, srvSet,
            muxSet] at hmem ⊢
      simp [this]
    | server => exact absurd rfl ((no_server_main_acts (mem_trace_server h hm)).2.2.1 srv)
    | world => rcases mem_trace_world h hm with e | ⟨r, e⟩ <;> cases e
  · intro t now d hm
    cases t with
    | main =>
      obtain ⟨⟨hnow, hd⟩, hctx⟩ := withTimeout_mem_main (mem_trace_main h hm)
      obtain ⟨rest, hrest, hno, _⟩ := ctx_begin env s.recvAt s.ctxAt hctx
      have hle := h.ctx_le hctx
      have hrecv : s.main.received = true := by
        cases hpc : s.main <;> rw [hpc] at hctx <;>
          simp [MainPC.ctxMade, MainPC.received, MainPC.listening, MainPC.spawned] at hctx ⊢
      subst hnow
      subst hd
      refine ⟨rfl, by rw [hT], hle.2, h.signal_seen (Or.inr hrecv), s.recvAt, rest, hle.1, ?_,
        hno⟩
      rw [h.mainDone, hrest]
      rfl
    | server => exact absurd rfl ((no_server_main_acts (mem_trace_server h hm)).2.1 now d)
    | world => rcases mem_trace_world h hm with e | ⟨r, e⟩ <;> cases e
  · intro t d hm
    cases t with
    | main =>
      have hmem := mem_trace_main h hm
      obtain ⟨hd, hctx⟩ := shutdown_mem_main hmem
      obtain ⟨rest, hrest, hno⟩ := shutdown_begin hmem
      have hle := h.ctx_le hctx
      subst hd
      refine ⟨rfl, s.recvAt, s.ctxAt, rest, hle.1, by rw [hT], ?_, hno⟩
      rw [h.mainDone, hrest]
      rfl
    | server => exact absurd rfl ((no_server_main_acts (mem_trace_server h hm)).1 d)
    | world => rcases mem_trace_world h hm with e | ⟨r, e⟩ <;> cases e
  · have := run_clock sched _ s hrun
    simpa [State.init] using this
  · intro hm hq hex
    have hk : s.killed = false := not_killed_of_listening h (by rw [hm]; rfl)
    simp [run, step, main, State.mainTo, hm, hq, hex, hk, shutDownTimeout]

/-- C7 on a run that shuts down after a signal: the signal is taken when the clock is at
1000 ns, line 63 runs at 1005 ns, and the deadline is 10 s after that. -/
theorem timeouts_are_fixed_witness :
    ∃ s, exec (quietEnv (7 : Nat)) cleanSchedule = some s ∧
      s.srv = some { Addr := ":8080".toList, ReadTimeout := 5000000000, ReadHeaderTimeout := 0,
                     WriteTimeout := 0, IdleTimeout := 0 } ∧
      (⟨.main, .receive 1000⟩ : Event) ∈ s.trace ∧
      (⟨.main, .withTimeout 1005 10000001005⟩ : Event) ∈ s.trace ∧
      (⟨.main, .shutdown 10000001005⟩ : Event) ∈ s.trace ∧
      s.clock = 1005 ∧
      ∀ t d, (⟨t, .shutdown d⟩ : Event) ∈ s.trace →
        t = .main ∧ ∃ t0 now rest, t0 ≤ now ∧ d = now + 10 * Second ∧
          actionsOf .main s.trace =
            [.flagParse .parsed, .openDB (quietEnv (7 : Nat)).dbFile, .routes,
              .newServer (newServer (quietEnv (7 : Nat)).addr), .go, .notify, .receive t0,
              .log .Info "Shutting down server..." [], .withTimeout now d, .shutdown d] ++ rest ∧
          (∀ d1, Action.shutdown d1 ∉ rest) :=
  ⟨_, rfl, rfl, by decide, by decide, by decide, rfl,
    (timeouts_are_fixed (quietEnv 7) cleanSchedule _ rfl).2.2.2.2.2.2.1⟩

/-- C8 as stated fails: `ListenAndServe` has returned an error, the signal arrives before the
goroutine has logged it, `main` takes the signal and `Shutdown` returns an error; then the
goroutine logs its own error and calls `os.Exit(1)`.  The error of `Shutdown` is not logged,
`Close` is not called, and the exit status is 1. -/
theorem shutdown_error_lost_when_listener_failed :
    (exec brokenEnv lateFailSchedule).map
      (fun s => (s.exit,
        decide ((⟨.world, .signal⟩ : Event) ∈ s.trace),
        decide ((⟨.main, .shutdownReturn (some (.other "context deadline exceeded".toList))⟩ :
          Event) ∈ s.trace),
        decide ((⟨.main, .log .Error "Server forced to shutdown"
          [("err", "context deadline exceeded".toList)]⟩ : Event) ∈ s.trace),
        s.trace.countP (fun e => e.act.isClose))) =
    some (some 1, true, true, false, 0) := by
  rfl

/-- C8, amended: once the signal has been taken, `main` on its own runs lines 62 to 71 to
the end whatever `Shutdown` and `Close` return: it calls `Shutdown` once, logs its error if
there is one, goes on to `Close`, logs its error if there is one, and returns, which ends
the process with status 0.  In every execution what `main` has done after it took the signal
is a part of that sequence, from its beginning, and `main` is never held up in it.  The
process ends with status 0 when `main` has done all of it; the one other end is the
`os.Exit(1)` of the goroutine of line 50, after `ListenAndServe` has returned an error other
than `http.ErrServerClosed`, with status 1 and the rest of the sequence not done. -/
theorem shutdown_errors_are_only_logged (env : Env DB) :
    (∀ t, afterSignal env t =
      [.log .Info "Shutting down server..." [], .withTimeout t (t + 10 * Second),
        .shutdown (t + 10 * Second), .shutdownReturn env.shutdownResult] ++
      (match env.shutdownResult with
        | some e => [.log .Error "Server forced to shutdown" [("err", e.Error)]]
        | none => []) ++
      [.log .Info "Server exiting" [], .cancel, .close env.closeResult] ++
      (match env.closeResult with
        | some e =>
          [.log .Error "can't close GeoIP2 database" [("err", e.Error), ("db", env.dbFile)]]
        | none => []) ++
      [.mainReturn]) ∧
    (∀ s : State DB, s.main = .logShutting → s.exit = none → s.killed = false →
      ∃ n s1, run env (List.replicate n Label.main) s = some s1 ∧ s1.exit = some 0 ∧
        s1.trace = s.trace ++ (afterSignal env s.clock).map (Event.mk .main)) ∧
    (∀ sched s t0, exec env sched = some s → (⟨.main, .receive t0⟩ : Event) ∈ s.trace →
      (∃ t1 rest, t0 ≤ t1 ∧ t1 ≤ s.clock ∧
        actionsOf .main s.trace ++ rest =
          [.flagParse .parsed, .openDB env.dbFile, .routes, .newServer (newServer env.addr),
            .go, .notify, .receive t0] ++ afterSignal env t1 ∧
        (∀ c, s.exit = some c →
          (c = 0 ∧ rest = []) ∨
          (c = 1 ∧ rest ≠ [] ∧ (⟨.server, .exit 1⟩ : Event) ∈ s.trace ∧
            ∃ e, env.listenResult = some e ∧ e ≠ .ErrServerClosed))) ∧
      (s.exit = none → ∃ s1, step env .main s = some s1)) ∧
    (∀ t, (afterSignal env t).count (.shutdown (t + 10 * Second)) = 1 ∧
      (afterSignal env t).countP Action.isClose = 1) := by
  refine ⟨?_, ?_, ?_, ?_⟩
  · intro t
    cases hsr : env.shutdownResult <;> cases hcr : env.closeResult <;>
      simp [afterSignal, wrapUp, forcedLog, closeErrLog, hsr, hcr, logForced, logCloseErr,
        shutDownTimeout]
  · intro s hm hex hk
    cases hsr : env.shutdownResult <;> cases hcr : env.closeResult
    · refine ⟨8, ?_⟩
      simp [List.replicate, run, step, main, State.mainTo, hm, hex, hk, hsr, hcr, afterSignal,
        wrapUp, forcedLog, closeErrLog]
    · refine ⟨9, ?_⟩
      simp [List.replicate, run, step, main, State.mainTo, hm, hex, hk, hsr, hcr, afterSignal,
        wrapUp, forcedLog, closeErrLog]
    · refine ⟨9, ?_⟩
      simp [List.replicate, run, step, main, State.mainTo, hm, hex, hk, hsr, hcr, afterSignal,
        wrapUp, forcedLog, closeErrLog]
    · refine ⟨10, ?_⟩
      simp [List.replicate, run, step, main, State.mainTo, hm, hex, hk, hsr, hcr, afterSignal,
        wrapUp, forcedLog, closeErrLog]
  · intro sched s t0 hrun hrecv
    have h := inv_exec hrun
    obtain ⟨ht0, hr⟩ := receive_mem_main (mem_trace_main h hrecv)
    subst ht0
    have hlis : s.main.listening = true := by
      cases hpc : s.main <;> rw [hpc] at hr <;> simp [MainPC.received] at hr ⊢ <;> exact hr
    have hk := not_killed_of_listening h hlis
    constructor
    · have hex : ∀ (c : Nat) (rest : List Action), (rest = [] ↔ s.main = .returned) →
          s.exit = some c →
          (c = 0 ∧ rest = []) ∨
          (c = 1 ∧ rest ≠ [] ∧ (⟨.server, .exit 1⟩ : Event) ∈ s.trace ∧
            ∃ e, env.listenResult = some e ∧ e ≠ .ErrServerClosed) := by
        intro c rest hiff hc
        rcases exit_cases h hc with ⟨hm, _⟩ | ⟨_, hm⟩ | ⟨hc0, hm⟩ | ⟨hc1, hg, _, hm2, _⟩
        · rw [hm] at hr; cases hr
        · rw [hm] at hr; cases hr
        · exact Or.inl ⟨hc0, hiff.mpr hm⟩
        · refine Or.inr ⟨hc1, fun hn => hm2 (hiff.mp hn), ?_,
            (unexpected_iff _).mp (h.server_err (by rw [hg]; rfl))⟩
          apply mem_of_mem_actionsOf
          rw [h.serverDone, hg]
          simp [serverActions]
      by_cases hctx : s.main.ctxMade = true
      · obtain ⟨rest, hrest, hiff⟩ :=
          received_begin env s.recvAt s.ctxAt s.ctxAt hr (fun _ => rfl)
        have hle := h.ctx_le hctx
        refine ⟨s.ctxAt, rest, hle.1, hle.2, ?_, fun c hc => hex c rest hiff hc⟩
        rw [h.mainDone, hrest]
        rfl
      · obtain ⟨rest, hrest, hiff⟩ :=
          received_begin env s.recvAt s.ctxAt s.clock hr (fun hc => absurd hc hctx)
        refine ⟨s.clock, rest, h.recv_le hr, Nat.le_refl _, ?_, fun c hc => hex c rest hiff hc⟩
        rw [h.mainDone, hrest]
        rfl
    · intro hex
      rw [step_main_eq hex hk]
      apply main_progress h hex
      intro hw
      rw [hw] at hr
      cases hr
  · intro t
    cases hsr : env.shutdownResult <;> cases hcr : env.closeResult <;>
      simp [afterSignal, wrapUp, forcedLog, closeErrLog, hsr, hcr, logForced, logCloseErr,
        shutDownTimeout, Action.isClose]

/-- C8, amended, on a run in which `Shutdown` runs into its deadline and `Close` fails, and
the listener does not: both errors are logged, `Close` is called, the status is 0. -/
theorem shutdown_errors_are_only_logged_witness :
    ∃ s, exec slowEnv slowSchedule = some s ∧ s.exit = some 0 ∧
      (∃ t1 rest, 1000 ≤ t1 ∧ t1 ≤ s.clock ∧
        actionsOf .main s.trace ++ rest =
          [.flagParse .parsed, .openDB slowEnv.dbFile, .routes,
            .newServer (newServer slowEnv.addr), .go, .notify, .receive 1000] ++
            afterSignal slowEnv t1 ∧
        (∀ c, s.exit = some c →
          (c = 0 ∧ rest = []) ∨
          (c = 1 ∧ rest ≠ [] ∧ (⟨.server, .exit 1⟩ : Event) ∈ s.trace ∧
            ∃ e, slowEnv.listenResult = some e ∧ e ≠ .ErrServerClosed))) ∧
      afterSignal slowEnv 1005 =
        [.log .Info "Shutting down server..." [], .withTimeout 1005 10000001005,
         .shutdown 10000001005, .shutdownReturn (some (.other "context deadline exceeded".toList)),
         .log .Error "Server forced to shutdown" [("err", "context deadline exceeded".toList)],
         .log .Info "Server exiting" [], .cancel, .close (some (.other "close failed".toList)),
         .log .Error "can't close GeoIP2 database"
           [("err", "close failed".toList), ("db", "city.mmdb".toList)],
         .mainReturn] :=
  ⟨_, rfl, rfl,
    ((shutdown_errors_are_only_logged slowEnv).2.2.1 slowSchedule _ 1000 rfl (by decide)).1,
    rfl⟩

/-- C9: without flags the listen address is `:8080` and the database file is
`GeoLite2-City.mmdb`; with flags they are the values given; `geoip2.Open` is called with
that file, it is the first thing that `main` does once `flag.Parse()` has accepted the
command line, and the server is built with, and listens on, that address.  When the command
line is not accepted, `geoip2.Open` is not called and no server is built. -/
theorem flags_set_address_and_file (env : Env DB) :
    (env.addrFlag = none → env.addr = ":8080".toList) ∧
    (env.dbFlag = none → env.dbFile = "GeoLite2-City.mmdb".toList) ∧
    (∀ v, env.addrFlag = some v → env.addr = v) ∧
    (∀ v, env.dbFlag = some v → env.dbFile = v) ∧
    (env.flagResult = .parsed →
      ∃ s, exec env [.main, .main] = some s ∧
        s.trace = [⟨.main, .flagParse .parsed⟩, ⟨.main, .openDB env.dbFile⟩]) ∧
    (∀ sched s, exec env sched = some s →
      (∀ t f, (⟨t, .openDB f⟩ : Event) ∈ s.trace → f = env.dbFile) ∧
      (∀ srv, s.srv = some srv → srv.Addr = env.addr) ∧
      (∀ t a, (⟨t, .listenAndServe a⟩ : Event) ∈ s.trace → a = env.addr)) ∧
    (env.flagResult ≠ .parsed → ∀ sched s, exec env sched = some s →
      (∀ t f, (⟨t, .openDB f⟩ : Event) ∉ s.trace) ∧ s.srv = none) := by
  refine ⟨?_, ?_, ?_, ?_, ?_, ?_, ?_⟩
  · intro h; simp [Env.addr, flagString, h]
  · intro h; simp [Env.dbFile, flagString, h]
  · intro v h; simp [Env.addr, flagString, h]
  · intro v h; simp [Env.dbFile, flagString, h]
  · intro hp
    cases ho : env.openDB env.dbFile <;>
      simp [exec, run, step, main, State.init, State.mainTo, ho, hp]
  · intro sched s hrun
    have h := inv_exec hrun
    refine ⟨?_, ?_, ?_⟩
    · intro t f hm
      cases t with
      | main => exact openDB_mem_main (mem_trace_main h hm)
      | server => exact absurd rfl ((no_server_main_acts (mem_trace_server h hm)).2.2.2.1 f)
      | world => rcases mem_trace_world h hm with e | ⟨r, e⟩ <;> cases e
    · intro srv hsrv
      have h5 := h.srv_eq
      rw [hsrv] at h5
      split at h5
      · simp only [Option.some.injEq] at h5
        rw [h5]; rfl
      · simp at h5
    · intro t a hm
      cases t with
      | main => exact absurd rfl ((no_main_server_acts (mem_trace_main h hm)).1 a)
      | server => exact listen_mem_server (mem_trace_server h hm)
      | world => rcases mem_trace_world h hm with e | ⟨r, e⟩ <;> cases e
  · intro hne sched s hrun
    have h := inv_exec hrun
    have key := flagFail_cases h hne
    have hsp : s.main.spawned = false := by
      rcases key with hm | hm | hm <;> rw [hm] <;> rfl
    have htr := trace_before_spawn h hsp
    have hsrv := h.srv_eq
    constructor
    · intro t f hmem
      rw [htr] at hmem
      rcases key with hm | hm | hm <;> rw [hm] at hmem <;>
        simp [mainActions, mem_flagExit] at hmem
    · rcases key with hm | hm | hm <;> rw [hm] at hsrv <;> simpa [srvSet, muxSet] using hsrv

/-- C9 on a run with `-addr 127.0.0.1:9000 -db city.mmdb`. -/
theorem flags_set_address_and_file_witness :
    ∃ s, exec slowEnv slowSchedule = some s ∧
      (⟨.main, .openDB "city.mmdb".toList⟩ : Event) ∈ s.trace ∧
      (⟨.server, .listenAndServe "127.0.0.1:9000".toList⟩ : Event) ∈ s.trace ∧
      "city.mmdb".toList = slowEnv.dbFile ∧ "127.0.0.1:9000".toList = slowEnv.addr :=
  ⟨_, rfl, by decide, by decide,
    ((flags_set_address_and_file slowEnv).2.2.2.2.2.1 slowSchedule _ rfl).1 .main _ (by decide),
    ((flags_set_address_and_file slowEnv).2.2.2.2.2.1 slowSchedule _ rfl).2.2 .server _
      (by decide)⟩


end HttpInspector
